import Mathlib

/-!
Verification of the spyglass-sdk Vertex AI tracing wrapper
(`src/spyglass_ai/langchain_google_vertexai.py` and `src/spyglass_ai/otel.py`).

The Python code manipulates loosely-typed values: objects with dynamically
probed attributes (`hasattr`/direct access), dicts, lists, strings, numbers
and `None`.  We embed that universe as the inductive type `Val`.  Operations
that can raise a Python exception are modelled in `Except Exc`.  Span
mutation is modelled as an ordered list of `SpanEvent`s.
-/

namespace Spyglass

/-- The universe of Python values the wrapper manipulates.
`vObj cls attrs` is a non-dict object with class name `cls` and attribute
dictionary `attrs` (attribute absent ⇔ not a key of `attrs`). -/
inductive Val where
  | vNone
  | vBool (b : Bool)
  | vInt (n : Int)
  | vStr (s : String)
  | vList (xs : List Val)
  | vDict (kvs : List (String × Val))
  | vObj (cls : String) (attrs : List (String × Val))
deriving Repr

/-- Python exceptions relevant to the wrapper: `AttributeError` from a failed
attribute access, `TypeError` from an operation on a value of the wrong
shape (e.g. `" ".join` over non-strings, `len` of an unsized value,
`json.dumps` of a non-serialisable object), and an arbitrary exception value
raised by the delegated model call (`userExc msg payload`, with `msg` its
`str(e)` rendering). -/
inductive Exc where
  | attributeError (attr : String)
  | typeError (msg : String)
  | userExc (msg : String) (payload : Val)
deriving Repr

/-- `str(e)` for the exceptions we model. -/
def Exc.message : Exc → String
  | .attributeError a => "no attribute " ++ a
  | .typeError m => m
  | .userExc m _ => m

/-- First-match association-list lookup, i.e. Python dict lookup order for
our finite dict model. -/
def alookup : List (String × Val) → String → Option Val
  | [], _ => none
  | (k, v) :: rest, key => if k = key then some v else alookup rest key

/-- Python truthiness (`if x:`) for the values we model. -/
def truthy : Val → Bool
  | .vNone => false
  | .vBool b => b
  | .vInt n => n ≠ 0
  | .vStr s => s ≠ ""
  | .vList xs => !xs.isEmpty
  | .vDict kvs => !kvs.isEmpty
  | .vObj _ _ => true

/-- `hasattr(x, name)` for the attribute names the wrapper probes (none of
which exist on built-in values, so only `vObj` can carry them). -/
def hasattr : Val → String → Bool
  | .vObj _ attrs, name => (alookup attrs name).isSome
  | _, _ => false

/-- Direct attribute access `x.name`; raises `AttributeError` when absent. -/
def getattrE : Val → String → Except Exc Val
  | .vObj _ attrs, name =>
    match alookup attrs name with
    | some v => .ok v
    | none => .error (.attributeError name)
  | _, name => .error (.attributeError name)

/-- Attribute access after a successful `hasattr` test (total; `vNone` is
never actually reached when guarded by `hasattr`). -/
def getattrD (x : Val) (name : String) : Val :=
  match getattrE x name with
  | .ok v => v
  | .error _ => .vNone

/-- `x.__class__.__name__` — every Python value has a class. -/
def className : Val → String
  | .vNone => "NoneType"
  | .vBool _ => "bool"
  | .vInt _ => "int"
  | .vStr _ => "str"
  | .vList _ => "list"
  | .vDict _ => "dict"
  | .vObj cls _ => cls

/-- `d.get(key)` on a Python dict: `None` when absent. -/
def dictGet (kvs : List (String × Val)) (key : String) : Val :=
  (alookup kvs key).getD .vNone

/-- `d.get(key, default)` on a Python dict. -/
def dictGetD (kvs : List (String × Val)) (key : String) (dflt : Val) : Val :=
  (alookup kvs key).getD dflt

/-- `v.get(key, default)` on an arbitrary value: `AttributeError` unless the
value is a dict. -/
def pyGetD (v : Val) (key : String) (dflt : Val) : Except Exc Val :=
  match v with
  | .vDict kvs => .ok (dictGetD kvs key dflt)
  | _ => .error (.attributeError "get")

/-- `v.get(key)` on an arbitrary value. -/
def pyGet (v : Val) (key : String) : Except Exc Val :=
  pyGetD v key .vNone

/-- Prefix test on character lists. -/
def prefixB : List Char → List Char → Bool
  | [], _ => true
  | _ :: _, [] => false
  | a :: as, b :: bs => a = b && prefixB as bs

/-- Substring (infix) test on character lists. -/
def infixB (sub : List Char) : List Char → Bool
  | [] => prefixB sub []
  | c :: t => prefixB sub (c :: t) || infixB sub t

/-- `key in v`, Python membership test: dict keys, list elements (string
equality only, the only case the wrapper exercises), substring for strings;
`TypeError` on unsized/non-container values. -/
def pyContains (v : Val) (key : String) : Except Exc Bool :=
  match v with
  | .vDict kvs => .ok (alookup kvs key).isSome
  | .vList xs => .ok (xs.any fun x => match x with | .vStr s => s = key | _ => false)
  | .vStr s => .ok (infixB key.data s.data)
  | _ => .error (.typeError "argument is not a container")

/-- `len(v)`: `TypeError` on unsized values. -/
def pyLen (v : Val) : Except Exc Nat :=
  match v with
  | .vList xs => .ok xs.length
  | .vDict kvs => .ok kvs.length
  | .vStr s => .ok s.length
  | _ => .error (.typeError "object has no len")

/-- `for x in v`: the sequence of iterates; dicts iterate over their keys,
strings over their characters; `TypeError` on non-iterables. -/
def pyIter (v : Val) : Except Exc (List Val) :=
  match v with
  | .vList xs => .ok xs
  | .vDict kvs => .ok (kvs.map fun kv => .vStr kv.1)
  | .vStr s => .ok (s.data.map fun c => .vStr (String.mk [c]))
  | _ => .error (.typeError "object is not iterable")

/-- `sep.join(parts)`: `TypeError` unless every part is a string. -/
def pyJoin (sep : String) (parts : List Val) : Except Exc String :=
  match parts with
  | [] => .ok ""
  | [p] =>
    match p with
    | .vStr s => .ok s
    | _ => .error (.typeError "sequence item: expected str instance")
  | p :: rest => do
    let s ← match p with
      | .vStr s => pure s
      | _ => Except.error (.typeError "sequence item: expected str instance")
    let t ← pyJoin sep rest
    return s ++ sep ++ t

/-- Lower-case hex digit, as used by `json.dumps` unicode escapes. -/
def hexDigit (n : Nat) : Char :=
  if n < 10 then Char.ofNat (48 + n) else Char.ofNat (87 + n)

/-- A `\uXXXX` escape for a code unit below 0x10000. -/
def uEscape (n : Nat) : String :=
  String.mk ['\\', 'u', hexDigit (n / 4096 % 16), hexDigit (n / 256 % 16),
    hexDigit (n / 16 % 16), hexDigit (n % 16)]

/-- `json.dumps` rendering of one character of a string, with the default
`ensure_ascii=True`: short escapes for the common control characters, `\uXXXX`
for other control or non-ASCII characters (surrogate pairs above the BMP). -/
def jsonEscapeChar (c : Char) : String :=
  if c = '\\' then "\\\\"
  else if c = '"' then "\\\""
  else if c = '\n' then "\\n"
  else if c = '\t' then "\\t"
  else if c = '\r' then "\\r"
  else if c.toNat = 8 then "\\b"
  else if c.toNat = 12 then "\\f"
  else if c.toNat < 32 || 126 < c.toNat then
    if c.toNat < 65536 then uEscape c.toNat
    else
      let v := c.toNat - 65536
      uEscape (55296 + v / 1024) ++ uEscape (56320 + v % 1024)
  else String.mk [c]

/-- `json.dumps` rendering of a string, quotes included. -/
def jsonQuote (s : String) : String :=
  "\"" ++ String.join (s.data.map jsonEscapeChar) ++ "\""

mutual

/-- `json.dumps(v)` with default options (separators `", "`/`": "`,
`ensure_ascii=True`); raises `TypeError` on a non-serialisable object. -/
def jsonDumps : Val → Except Exc String
  | .vNone => .ok "null"
  | .vBool true => .ok "true"
  | .vBool false => .ok "false"
  | .vInt n => .ok (toString n)
  | .vStr s => .ok (jsonQuote s)
  | .vList xs => do
    let ss ← jsonDumpsList xs
    return "[" ++ String.intercalate ", " ss ++ "]"
  | .vDict kvs => do
    let ss ← jsonDumpsKVs kvs
    return "\x7b" ++ String.intercalate ", " ss ++ "\x7d"
  | .vObj cls _ => .error (.typeError ("Object of type " ++ cls ++ " is not JSON serializable"))

/-- Serialise the elements of a JSON array. -/
def jsonDumpsList : List Val → Except Exc (List String)
  | [] => .ok []
  | v :: vs => do
    let s ← jsonDumps v
    let ss ← jsonDumpsList vs
    return s :: ss

/-- Serialise the `"key": value` entries of a JSON object. -/
def jsonDumpsKVs : List (String × Val) → Except Exc (List String)
  | [] => .ok []
  | (k, v) :: kvs => do
    let s ← jsonDumps v
    let ss ← jsonDumpsKVs kvs
    return (jsonQuote k ++ ": " ++ s) :: ss

end

/-- Case-sensitive substring test (`sub in hay` on Python strings). -/
def strContains (hay sub : String) : Bool :=
  infixB sub.data hay.data

/-- `s.lower()` — character-wise lowering, as Python does for the ASCII
class names involved. -/
def lowerStr (s : String) : String :=
  String.mk (s.data.map Char.toLower)

/-- Role resolution of `_format_langchain_messages` (source lines 205-219):
the message's class name is lowered and matched by substring in a fixed
order.  In Python `hasattr(message, "__class__")` is true of every value, so
the `else` branch at line 218 is unreachable; the embedding reflects this by
always using the value's class name. -/
def roleForMessage (m : Val) : String :=
  let t := lowerStr (className m)
  if strContains t "human" || strContains t "user" then "user"
  else if strContains t "ai" || strContains t "assistant" then "assistant"
  else if strContains t "system" then "system"
  else if strContains t "tool" then "tool"
  else "unknown"

/-- `part.get("type") == "text"`: in Python only a string compares equal to
`"text"` among the values we model. -/
def typeIsText : Option Val → Bool
  | some (.vStr s) => s = "text"
  | _ => false

/-- Content-part collection (source lines 227-232): dict parts with
`type == "text"` contribute their `text` field (default `""`), bare strings
contribute themselves, every other part is dropped. -/
def textPartsOf : List Val → List Val
  | [] => []
  | p :: rest =>
    match p with
    | .vDict kvs =>
      if typeIsText (alookup kvs "type") then dictGetD kvs "text" (.vStr "") :: textPartsOf rest
      else textPartsOf rest
    | .vStr s => .vStr s :: textPartsOf rest
    | _ => textPartsOf rest

/-- Content resolution (source lines 221-233): string content is used
as-is, list content is the space-join of its collected text parts (which
raises `TypeError` when a collected part is not a string), any other shape
leaves content as `""`. -/
def extractContent (m : Val) : Except Exc String :=
  if hasattr m "content" then
    match getattrD m "content" with
    | .vStr s => .ok s
    | .vList parts => pyJoin " " (textPartsOf parts)
    | _ => .ok ""
  else .ok ""

/-- One tool-call record (source lines 240-247): `arguments` is
`json.dumps(tc.get("args", {}))` when `tc.get("args")` is truthy, else `""`. -/
def formatToolCall (tc : Val) : Except Exc Val := do
  let id ← pyGetD tc "id" (.vStr "")
  let name ← pyGetD tc "name" (.vStr "")
  let args ← pyGet tc "args"
  let argStr ←
    if truthy args then do
      let a ← pyGetD tc "args" (.vDict [])
      jsonDumps a
    else pure ""
  return .vDict [("id", id), ("type", .vStr "function"),
    ("function", .vDict [("name", name), ("arguments", .vStr argStr)])]

/-- The tool-call list comprehension (source lines 239-249). -/
def formatToolCallList : List Val → Except Exc (List Val)
  | [] => .ok []
  | tc :: rest => do
    let f ← formatToolCall tc
    let fs ← formatToolCallList rest
    return f :: fs

/-- The `tool_calls` entry of a formatted message (source lines 238-249):
present exactly when the message carries a truthy `tool_calls` attribute. -/
def toolField (m : Val) : Except Exc (List (String × Val)) :=
  if hasattr m "tool_calls" && truthy (getattrD m "tool_calls") then do
    let tcs ← pyIter (getattrD m "tool_calls")
    let fs ← formatToolCallList tcs
    pure [("tool_calls", Val.vList fs)]
  else pure []

/-- The `tool_call_id` entry of a formatted message (source lines 252-253):
present exactly when the attribute exists, copied verbatim. -/
def idField (m : Val) : List (String × Val) :=
  if hasattr m "tool_call_id" then [("tool_call_id", getattrD m "tool_call_id")] else []

/-- `_format_langchain_messages` restricted to one message (source lines
205-255): a `{role, content}` record, extended with `tool_calls` when the
message carries a truthy `tool_calls` attribute and with `tool_call_id`
when that attribute exists. -/
def formatMessage (m : Val) : Except Exc Val := do
  let content ← extractContent m
  let tf ← toolField m
  return .vDict ([("role", Val.vStr (roleForMessage m)), ("content", Val.vStr content)]
    ++ tf ++ idField m)

/-- `_format_langchain_messages` (source lines 201-257), as the formatting
of each message in order; the first raised exception propagates. -/
def formatMessages : List Val → Except Exc (List Val)
  | [] => .ok []
  | m :: rest => do
    let f ← formatMessage m
    let fs ← formatMessages rest
    return f :: fs

/-- `v[0]` on the (truthy) `generations` value. -/
def pyIndex0 (v : Val) : Except Exc Val :=
  match v with
  | .vList (x :: _) => .ok x
  | .vList [] => .error (.typeError "list index out of range")
  | .vStr s =>
    match s.data with
    | c :: _ => .ok (.vStr (String.mk [c]))
    | [] => .error (.typeError "string index out of range")
  | .vDict _ => .error (.typeError "KeyError: 0")
  | _ => .error (.typeError "object is not subscriptable")

/-- `v[key]` subscript with a string key. -/
def pySubscript (v : Val) (key : String) : Except Exc Val :=
  match v with
  | .vDict kvs =>
    match alookup kvs key with
    | some x => .ok x
    | none => .error (.typeError ("KeyError: " ++ key))
  | _ => .error (.typeError "object is not subscriptable")

/-- Span mutations performed by the wrapper, in program order.  `delegated`
marks the invocation of the original (unwrapped) method. -/
inductive StatusCode where
  | ok
  | error
deriving Repr

/-- One observable span operation. -/
inductive SpanEvent where
  | setAttr (name : String) (v : Val)
  | delegated
  | recordException (e : Exc)
  | setStatus (code : StatusCode) (msg : Option String)
deriving Repr

/-- Sequence two attribute-emitting steps, stopping at the first exception
and keeping the attributes emitted before it (Python semantics:
`span.set_attribute` calls already made are not undone by a later raise). -/
def evSeq {α : Type} (a : List α × Option Exc) (b : Unit → List α × Option Exc) :
    List α × Option Exc :=
  match a with
  | (ev, some e) => (ev, some e)
  | (ev, none) =>
    let (ev2, e2) := b ()
    (ev ++ ev2, e2)

/-- `if hasattr(x, a) and x.a: span.set_attribute(n, x.a)` (source lines
62-65). -/
def optAttrTruthy (x : Val) (a n : String) : List (String × Val) :=
  if hasattr x a && truthy (getattrD x a) then [(n, getattrD x a)] else []

/-- `x is None` test. -/
def isNone : Val → Bool
  | .vNone => true
  | _ => false

/-- `if hasattr(x, a) and x.a is not None: span.set_attribute(n, x.a)`
(source lines 68-75). -/
def optAttrNotNone (x : Val) (a n : String) : List (String × Val) :=
  if hasattr x a && !(isNone (getattrD x a)) then [(n, getattrD x a)] else []

/-- `func.get("name", "unknown")` over a list of values (source lines 91-92;
also the response-side `tc.get("name", "unknown")` comprehension at line
144): raises `AttributeError` on a non-dict element. -/
def funcNames : List Val → Except Exc (List Val)
  | [] => .ok []
  | f :: rest => do
    let n ← pyGetD f "name" (.vStr "unknown")
    let ns ← funcNames rest
    return n :: ns

/-- Collect tool names from the `tools` entries (source lines 88-94):
grouped `function_declarations` lists are flattened, single `function`
descriptors contribute one name, non-dict entries are skipped. -/
def toolNamesOf : List Val → Except Exc (List Val)
  | [] => .ok []
  | t :: rest =>
    match t with
    | .vDict kvs =>
      if (alookup kvs "function_declarations").isSome then do
        let funcs ← pyIter (dictGet kvs "function_declarations")
        let names ← funcNames funcs
        let more ← toolNamesOf rest
        return names ++ more
      else if (alookup kvs "function").isSome then do
        let n ← pyGetD (dictGet kvs "function") "name" (.vStr "unknown")
        let more ← toolNamesOf rest
        return n :: more
      else toolNamesOf rest
    | _ => toolNamesOf rest

/-- The `tools` block of `_set_vertexai_attributes` (source lines 85-96). -/
def toolsEvents (kwargs : List (String × Val)) : List (String × Val) × Option Exc :=
  match alookup kwargs "tools" with
  | none => ([], none)
  | some tools =>
    match pyLen tools with
    | .error e => ([], some e)
    | .ok n =>
      let ev := [("gen_ai.request.tools.count", Val.vInt n)]
      match pyIter tools with
      | .error e => (ev, some e)
      | .ok ts =>
        match toolNamesOf ts with
        | .error e => (ev, some e)
        | .ok names =>
          if names.isEmpty then (ev, none)
          else
            match pyJoin "," names with
            | .error e => (ev, some e)
            | .ok s => (ev ++ [("gen_ai.request.tools.names", Val.vStr s)], none)

/-- `_set_vertexai_attributes` (source lines 55-100): the span events in
program order, paired with the first raised exception if any.  Note that
`llm_instance.model_name` at line 59 is read without a `hasattr` guard. -/
def set_vertexai_attributes (llm : Val) (messages : List Val) (kwargs : List (String × Val)) :
    List (String × Val) × Option Exc :=
  let ev0 := [("gen_ai.operation.name", Val.vStr "chat"),
              ("gen_ai.system", Val.vStr "vertex_ai")]
  match getattrE llm "model_name" with
  | .error e => (ev0, some e)
  | .ok mn =>
    let ev1 := ev0 ++ [("gen_ai.request.model", mn)]
      ++ optAttrTruthy llm "project" "gen_ai.request.vertex_ai.project"
      ++ optAttrTruthy llm "location" "gen_ai.request.vertex_ai.location"
      ++ optAttrNotNone llm "temperature" "gen_ai.request.temperature"
      ++ optAttrNotNone llm "max_output_tokens" "gen_ai.request.max_tokens"
      ++ optAttrNotNone llm "top_p" "gen_ai.request.top_p"
      ++ optAttrNotNone llm "top_k" "gen_ai.request.top_k"
      ++ [("gen_ai.input.messages.count", Val.vInt messages.length)]
    match formatMessages messages with
    | .error e => (ev1, some e)
    | .ok fmsgs =>
      match jsonDumps (.vList fmsgs) with
      | .error e => (ev1, some e)
      | .ok js =>
        let ev2 := ev1 ++ [("gen_ai.input.messages", Val.vStr js)]
        match toolsEvents kwargs with
        | (ev3, some e) => (ev2 ++ ev3, some e)
        | (ev3, none) =>
          (ev2 ++ ev3
            ++ (if hasattr llm "safety_settings" && truthy (getattrD llm "safety_settings") then
              [("gen_ai.request.vertex_ai.safety_settings.enabled", Val.vBool true)]
            else []), none)

/-- One usage group of the dict branch (source lines 114-127):
`usage.get(genaiKey) or usage.get(nativeKey)` resolves to the GenAI value
when truthy and otherwise to the provider-native value; the attribute is
set only when the resolved value is itself truthy. -/
def usageGroupEvents (kvs : List (String × Val)) (genaiKey nativeKey attrName : String) :
    List (String × Val) :=
  if (alookup kvs genaiKey).isSome || (alookup kvs nativeKey).isSome then
    let resolved := if truthy (dictGet kvs genaiKey) then dictGet kvs genaiKey
      else dictGet kvs nativeKey
    if truthy resolved then [(attrName, resolved)] else []
  else []

/-- The object branch of usage extraction (source lines 128-135): each
provider-native field is copied when present, with no truthiness test. -/
def usageObjEvents (usage : Val) : List (String × Val) :=
  (if hasattr usage "prompt_token_count" then
    [("gen_ai.usage.input_tokens", getattrD usage "prompt_token_count")]
  else [])
  ++ (if hasattr usage "candidates_token_count" then
    [("gen_ai.usage.output_tokens", getattrD usage "candidates_token_count")]
  else [])
  ++ (if hasattr usage "total_token_count" then
    [("gen_ai.usage.total_tokens", getattrD usage "total_token_count")]
  else [])

/-- The usage-metadata block of `_set_response_attributes` (source lines
110-135); total, since every access in it is guarded. -/
def usageEvents (message : Val) : List (String × Val) :=
  if hasattr message "usage_metadata" && truthy (getattrD message "usage_metadata") then
    match getattrD message "usage_metadata" with
    | .vDict kvs =>
      usageGroupEvents kvs "input_tokens" "prompt_token_count" "gen_ai.usage.input_tokens"
      ++ usageGroupEvents kvs "output_tokens" "candidates_token_count" "gen_ai.usage.output_tokens"
      ++ usageGroupEvents kvs "total_tokens" "total_token_count" "gen_ai.usage.total_tokens"
    | usage => usageObjEvents usage
  else []

/-- The response tool-call block (source lines 142-145). -/
def respToolEvents (message : Val) : List (String × Val) × Option Exc :=
  if hasattr message "tool_calls" && truthy (getattrD message "tool_calls") then
    match pyLen (getattrD message "tool_calls") with
    | .error e => ([], some e)
    | .ok n =>
      let ev := [("gen_ai.response.tools.count", Val.vInt n)]
      match pyIter (getattrD message "tool_calls") with
      | .error e => (ev, some e)
      | .ok tcs =>
        match funcNames tcs with
        | .error e => (ev, some e)
        | .ok names =>
          match pyJoin "," names with
          | .error e => (ev, some e)
          | .ok s => (ev ++ [("gen_ai.response.tools.names", Val.vStr s)], none)
  else ([], none)

/-- `if key in metadata: span.set_attribute(n, metadata[key])` (source lines
151-156). -/
def metaKeyAttr (metadata : Val) (key attrName : String) : List (String × Val) × Option Exc :=
  match pyContains metadata key with
  | .error e => ([], some e)
  | .ok false => ([], none)
  | .ok true =>
    match pySubscript metadata key with
    | .error e => ([], some e)
    | .ok v => ([(attrName, v)], none)

/-- The safety-ratings block (source lines 159-161). -/
def safetyRatingsEvents (metadata : Val) : List (String × Val) × Option Exc :=
  match pyContains metadata "safety_ratings" with
  | .error e => ([], some e)
  | .ok false => ([], none)
  | .ok true =>
    match pySubscript metadata "safety_ratings" with
    | .error e => ([], some e)
    | .ok v =>
      if truthy v then
        match pyLen v with
        | .error e => ([], some e)
        | .ok n => ([("gen_ai.response.vertex_ai.safety_ratings.count", Val.vInt n)], none)
      else ([], none)

/-- The citation block (source lines 164-165). -/
def citationsEvents (metadata : Val) : List (String × Val) × Option Exc :=
  match pyContains metadata "citation_metadata" with
  | .error e => ([], some e)
  | .ok false => ([], none)
  | .ok true =>
    match pySubscript metadata "citation_metadata" with
    | .error e => ([], some e)
    | .ok v =>
      if truthy v then
        ([("gen_ai.response.vertex_ai.has_citations", Val.vBool true)], none)
      else ([], none)

/-- The response-metadata block of `_set_response_attributes` (source lines
148-165). -/
def respMetadataEvents (message : Val) : List (String × Val) × Option Exc :=
  if hasattr message "response_metadata" && truthy (getattrD message "response_metadata") then
    let metadata := getattrD message "response_metadata"
    evSeq (metaKeyAttr metadata "model_name" "gen_ai.response.model") fun _ =>
    evSeq (metaKeyAttr metadata "finish_reason" "gen_ai.response.finish_reasons") fun _ =>
    evSeq (safetyRatingsEvents metadata) fun _ =>
    citationsEvents metadata
  else ([], none)

/-- `_set_response_attributes` (source lines 103-165): the span events in
program order, paired with the first raised exception if any. -/
def set_response_attributes (result : Val) : List (String × Val) × Option Exc :=
  if hasattr result "generations" && truthy (getattrD result "generations") then
    match pyIndex0 (getattrD result "generations") with
    | .error e => ([], some e)
    | .ok generation =>
      match getattrE generation "message" with
      | .error e => ([], some e)
      | .ok message =>
        let ev1 := usageEvents message
        match formatMessages [message] with
        | .error e => (ev1, some e)
        | .ok fmsgs =>
          match jsonDumps (.vList fmsgs) with
          | .error e => (ev1, some e)
          | .ok js =>
            match respToolEvents message with
            | (ev3, some e) => (ev1 ++ [("gen_ai.output.messages", Val.vStr js)] ++ ev3, some e)
            | (ev3, none) =>
              match respMetadataEvents message with
              | (ev4, e4) =>
                (ev1 ++ [("gen_ai.output.messages", Val.vStr js)] ++ ev3 ++ ev4, e4)
  else ([], none)

/-- The observable record of one wrapped invocation: the span's name and
its operations in order. -/
structure SpanTrace where
  name : String
  events : List SpanEvent
deriving Repr

/-- Render a list of recorded attribute pairs as span operations. -/
def setAttrs (attrs : List (String × Val)) : List SpanEvent :=
  attrs.map fun p => SpanEvent.setAttr p.1 p.2

/-- The shared body of `traced_generate` and `traced_agenerate` (source
lines 33-50 and 179-196; the async body is line-for-line the sync body with
an `await` on the delegated call, which the embedding leaves implicit).
`callResult` is the outcome the original method produces when it is
reached.  On any exception the span records it once, the status becomes
ERROR carrying `str(e)`, and the exception is re-raised (`Except.error`). -/
def tracedInvoke (spanName : String) (llm : Val) (messages : List Val)
    (kwargs : List (String × Val)) (callResult : Except Exc Val) :
    SpanTrace × Except Exc Val :=
  match (set_vertexai_attributes llm messages kwargs).2 with
  | some e =>
    (⟨spanName, setAttrs (set_vertexai_attributes llm messages kwargs).1
      ++ [.recordException e, .setStatus .error (some e.message)]⟩,
      .error e)
  | none =>
    match callResult with
    | .error e =>
      (⟨spanName, setAttrs (set_vertexai_attributes llm messages kwargs).1
        ++ [.delegated, .recordException e, .setStatus .error (some e.message)]⟩,
        .error e)
    | .ok result =>
      match (set_response_attributes result).2 with
      | some e =>
        (⟨spanName,
          setAttrs (set_vertexai_attributes llm messages kwargs).1 ++ [.delegated]
            ++ setAttrs (set_response_attributes result).1
            ++ [.recordException e, .setStatus .error (some e.message)]⟩,
          .error e)
      | none =>
        (⟨spanName,
          setAttrs (set_vertexai_attributes llm messages kwargs).1 ++ [.delegated]
            ++ setAttrs (set_response_attributes result).1 ++ [.setStatus .ok none]⟩,
          .ok result)

/-- `traced_generate` (source lines 33-50). -/
def traced_generate (llm : Val) (messages : List Val) (kwargs : List (String × Val))
    (callResult : Except Exc Val) : SpanTrace × Except Exc Val :=
  tracedInvoke "vertexai.chat.generate" llm messages kwargs callResult

/-- `traced_agenerate` (source lines 179-196). -/
def traced_agenerate (llm : Val) (messages : List Val) (kwargs : List (String × Val))
    (callResult : Except Exc Val) : SpanTrace × Except Exc Val :=
  tracedInvoke "vertexai.chat.agenerate" llm messages kwargs callResult

/-- A generation-method reference held by a client instance.  Wrapping
builds a new closure over the original (`traced`), so a wrapped reference
is never equal to the one it wraps. -/
inductive Method where
  | original (id : Nat)
  | traced (inner : Method)
deriving Repr, DecidableEq

/-- A client instance: its non-method fields, its `_generate` method and,
when the capability exists, its `_agenerate` method. -/
structure Instance where
  attrs : List (String × Val)
  gen : Method
  agen : Option Method

/-- Instances live on a heap of references, so that in-place mutation
versus copying is observable. -/
abbrev Ref := Nat

/-- The mutable store of client instances. -/
abbrev Heap := Ref → Instance

/-- `_wrap_generate_method` (source lines 28-52): replace `_generate` on
the given instance with a traced closure over the original. -/
def wrap_generate_method (h : Heap) (r : Ref) : Heap :=
  fun q => if q = r then { h r with gen := .traced (h r).gen } else h q

/-- `_wrap_async_methods` (source lines 168-198): replace `_agenerate` the
same way when the instance has one (`hasattr` check at line 170). -/
def wrap_async_methods (h : Heap) (r : Ref) : Heap :=
  match (h r).agen with
  | some m => fun q => if q = r then { h r with agen := some (.traced m) } else h q
  | none => h

/-- `spyglass_chatvertexai` (source lines 10-25): wrap the sync method,
then the async one, and return the same reference. -/
def spyglass_chatvertexai (h : Heap) (r : Ref) : Ref × Heap :=
  let h1 := wrap_generate_method h r
  let h2 := wrap_async_methods h1 r
  (r, h2)

/-- The process environment as seen by `os.getenv`. -/
abbrev Env := String → Option String

/-- The configuration errors defined at the top of `otel.py` (lines 9-19). -/
inductive OtelError where
  | exporterConfigurationError (msg : String)
  | deploymentConfigurationError (msg : String)
deriving Repr, DecidableEq

/-- `not os.getenv(name)`: an unset variable (None) and an empty string are
both falsy. -/
def envFalsy : Option String → Bool
  | none => true
  | some s => s = ""

/-- `_create_resource` (otel.py lines 21-34): fails when
`SPYGLASS_DEPLOYMENT_ID` is unset (or empty), otherwise uses it as both the
`service.name` and `deployment.id` resource attributes. -/
def create_resource (env : Env) : Except OtelError (List (String × String)) :=
  let deployment_id := env "SPYGLASS_DEPLOYMENT_ID"
  if envFalsy deployment_id then
    .error (.deploymentConfigurationError "SPYGLASS_DEPLOYMENT_ID is required but not set")
  else
    let d := deployment_id.getD ""
    .ok [("service.name", d), ("deployment.id", d)]

/-- The exporter configuration `_create_exporter` assembles. -/
structure ExporterConfig where
  endpoint : String
  compressionGzip : Bool
  insecure : Bool
  headers : List (String × String)
deriving Repr, DecidableEq

/-- `_create_exporter` (otel.py lines 37-61): endpoint from the override
variable or the production default, gzip compression always on, plaintext
transport inferred from the endpoint, and a mandatory API key turned into a
lowercase bearer-token header; raises `ExporterConfigurationError` when the
key is unset (or empty). -/
def create_exporter (env : Env) : Except OtelError ExporterConfig :=
  let api_key := env "SPYGLASS_API_KEY"
  let endpoint :=
    (env "SPYGLASS_OTEL_EXPORTER_OTLP_ENDPOINT").getD "https://ingest.spyglass-ai.com:443"
  let insecure := endpoint.startsWith "http://" || strContains endpoint ":4317"
  if envFalsy api_key then
    .error (.exporterConfigurationError "SPYGLASS_API_KEY is not set")
  else
    .ok { endpoint := endpoint, compressionGzip := true, insecure := insecure,
          headers := [("authorization", "Bearer " ++ api_key.getD "")] }

/-- The tracer-provider state assembled at module import. -/
structure TracerInit where
  resourceAttrs : List (String × String)
  exporter : ExporterConfig
deriving Repr, DecidableEq

/-- The module top level of `otel.py` (lines 63-68): resource creation
first, then exporter creation; the first configuration error aborts the
import, so no tracer can be obtained. -/
def initTracer (env : Env) : Except OtelError TracerInit := do
  let resource ← create_resource env
  let exporter ← create_exporter env
  return ⟨resource, exporter⟩

/-- The attribute mapping of an object value, `none` elsewhere: used to
state claims about message and result fields. -/
def attrOf (m : Val) (a : String) : Option Val :=
  match m with
  | .vObj _ attrs => alookup attrs a
  | _ => none

/-- Field projection on a (formatted) dict value. -/
def fieldOf (v : Val) (k : String) : Option Val :=
  match v with
  | .vDict kvs => alookup kvs k
  | _ => none

/-- Modelled from the spec's words (§4.4): case-insensitive substring
containment, for the role-resolution refinement claim. -/
def containsCI (tag keyword : String) : Bool :=
  strContains (lowerStr tag) (lowerStr keyword)

/-- Modelled from the spec's words (§4.4): the role cascade exactly as the
spec states it — keywords checked case-insensitively against the type tag,
in the fixed order user, assistant, system, tool, first match winning. -/
def roleSpec (tag : String) : String :=
  if containsCI tag "human" || containsCI tag "user" then "user"
  else if containsCI tag "ai" || containsCI tag "assistant" then "assistant"
  else if containsCI tag "system" then "system"
  else if containsCI tag "tool" then "tool"
  else "unknown"

theorem traced_ne (m : Method) : Method.traced m ≠ m := by
  induction m with
  | original n => intro h; cases h
  | traced inner ih => intro h; injection h with h'; exact ih h'

/-- C3: `spyglass_chatvertexai` hands back the same reference it was given,
replaces `_generate` with a distinct traced closure over the original,
replaces `_agenerate` the same way exactly when the instance has one, and
leaves every other field of the instance — and every other instance on the
heap — untouched. -/
theorem c3_wrap_in_place (h : Heap) (r : Ref) :
    (spyglass_chatvertexai h r).1 = r ∧
    ((spyglass_chatvertexai h r).2 r).attrs = (h r).attrs ∧
    ((spyglass_chatvertexai h r).2 r).gen = .traced (h r).gen ∧
    ((spyglass_chatvertexai h r).2 r).gen ≠ (h r).gen ∧
    ((spyglass_chatvertexai h r).2 r).agen = ((h r).agen).map .traced ∧
    (∀ m, (h r).agen = some m → ((spyglass_chatvertexai h r).2 r).agen ≠ some m) ∧
    (∀ q, q ≠ r → (spyglass_chatvertexai h r).2 q = h q) := by
  unfold spyglass_chatvertexai wrap_generate_method wrap_async_methods
  cases hag : (h r).agen with
  | none =>
    simp [hag]
    exact ⟨traced_ne _, fun q hq => by simp [hq]⟩
  | some m =>
    simp [hag]
    refine ⟨traced_ne _, fun h' => traced_ne m h', fun q hq => by simp [hq]⟩

/-- Closed instance of C3 at a two-instance heap whose instance 0 has both
generation methods. -/
theorem c3_wrap_in_place_witness :
    (spyglass_chatvertexai
      (fun _ => ⟨[("model_name", .vStr "gemini")], .original 0, some (.original 1)⟩) 0).1 = 0 ∧
    ((spyglass_chatvertexai
      (fun _ => ⟨[("model_name", .vStr "gemini")], .original 0, some (.original 1)⟩) 0).2 0).agen ≠
      some (.original 1) ∧
    (spyglass_chatvertexai
      (fun _ => ⟨[("model_name", .vStr "gemini")], .original 0, some (.original 1)⟩) 0).2 1 =
      ⟨[("model_name", .vStr "gemini")], .original 0, some (.original 1)⟩ := by
  refine ⟨(c3_wrap_in_place _ 0).1, ?_, ?_⟩
  · exact (c3_wrap_in_place _ 0).2.2.2.2.2.1 (.original 1) rfl
  · exact (c3_wrap_in_place _ 0).2.2.2.2.2.2 1 (by decide)

/-- C9: tracer bootstrap fails fast — with `SPYGLASS_API_KEY` unset the
exporter constructor raises `ExporterConfigurationError` (and so does the
module initialisation, with no fallback exporter); with
`SPYGLASS_DEPLOYMENT_ID` unset the resource constructor raises
`DeploymentConfigurationError`; with both set, the deployment id becomes
both the `service.name` and `deployment.id` resource attributes. -/
theorem c9_bootstrap_fail_fast :
    (∀ env : Env, env "SPYGLASS_API_KEY" = none →
      create_exporter env = .error (.exporterConfigurationError "SPYGLASS_API_KEY is not set")) ∧
    (∀ env : Env, env "SPYGLASS_API_KEY" = none → ∀ d, env "SPYGLASS_DEPLOYMENT_ID" = some d →
      d ≠ "" →
      initTracer env = .error (.exporterConfigurationError "SPYGLASS_API_KEY is not set")) ∧
    (∀ env : Env, env "SPYGLASS_DEPLOYMENT_ID" = none →
      create_resource env =
        .error (.deploymentConfigurationError "SPYGLASS_DEPLOYMENT_ID is required but not set")) ∧
    (∀ env : Env, ∀ d, env "SPYGLASS_DEPLOYMENT_ID" = some d → d ≠ "" →
      create_resource env = .ok [("service.name", d), ("deployment.id", d)]) := by
  refine ⟨?_, ?_, ?_, ?_⟩
  · intro env hk
    simp [create_exporter, hk, envFalsy]
  · intro env hk d hd hne
    simp [initTracer, create_resource, create_exporter, hk, hd, envFalsy, hne]
    rfl
  · intro env hd
    simp [create_resource, hd, envFalsy]
  · intro env d hd hne
    simp [create_resource, hd, envFalsy, hne]

/-- Closed instance of C9 at two concrete environments. -/
theorem c9_bootstrap_fail_fast_witness :
    create_exporter (fun _ => none) =
      .error (.exporterConfigurationError "SPYGLASS_API_KEY is not set") ∧
    initTracer (fun n => if n = "SPYGLASS_DEPLOYMENT_ID" then some "deploy-1" else none) =
      .error (.exporterConfigurationError "SPYGLASS_API_KEY is not set") ∧
    create_resource (fun _ => none) =
      .error (.deploymentConfigurationError "SPYGLASS_DEPLOYMENT_ID is required but not set") ∧
    create_resource (fun n => if n = "SPYGLASS_DEPLOYMENT_ID" then some "deploy-1" else none) =
      .ok [("service.name", "deploy-1"), ("deployment.id", "deploy-1")] := by
  refine ⟨c9_bootstrap_fail_fast.1 _ rfl, ?_, c9_bootstrap_fail_fast.2.2.1 _ rfl, ?_⟩
  · exact c9_bootstrap_fail_fast.2.1 _ rfl "deploy-1" rfl (by decide)
  · exact c9_bootstrap_fail_fast.2.2.2 _ "deploy-1" rfl (by decide)

theorem exc_bind_ok {α β : Type} (a : α) (f : α → Except Exc β) :
    (Except.ok a >>= f) = f a := rfl

theorem exc_bind_error {α β : Type} (e : Exc) (f : α → Except Exc β) :
    ((Except.error e : Except Exc α) >>= f) = Except.error e := rfl

theorem exc_map_ok {α β : Type} (a : α) (f : α → β) :
    (f <$> (Except.ok a : Except Exc α)) = Except.ok (f a) := rfl

theorem exc_map_error {α β : Type} (e : Exc) (f : α → β) :
    (f <$> (Except.error e : Except Exc α)) = (Except.error e : Except Exc β) := rfl

theorem roleForMessage_eq_roleSpec (m : Val) : roleForMessage m = roleSpec (className m) := by
  have h1 : lowerStr "human" = "human" := rfl
  have h2 : lowerStr "user" = "user" := rfl
  have h3 : lowerStr "ai" = "ai" := rfl
  have h4 : lowerStr "assistant" = "assistant" := rfl
  have h5 : lowerStr "system" = "system" := rfl
  have h6 : lowerStr "tool" = "tool" := rfl
  simp only [roleForMessage, roleSpec, containsCI, strContains, h1, h2, h3, h4, h5, h6]

theorem formatMessage_ok_iff (m fm : Val) :
    formatMessage m = .ok fm ↔
      ∃ c tf, extractContent m = .ok c ∧ toolField m = .ok tf ∧
        fm = .vDict ([("role", .vStr (roleForMessage m)), ("content", .vStr c)]
          ++ tf ++ idField m) := by
  unfold formatMessage
  cases hc : extractContent m with
  | error e => simp [hc, exc_bind_error]
  | ok c =>
    cases ht : toolField m with
    | error e => simp [hc, ht, exc_bind_ok, exc_bind_error, exc_map_error]
    | ok tf => simp [hc, ht, exc_bind_ok, exc_map_ok, eq_comm]

/-- C4: the formatted role of every message that the formatter emits is
exactly the spec's cascade — case-insensitive substring match on the
message's type tag, in the fixed order user, assistant, system, tool, first
match winning, `"unknown"` otherwise (`roleSpec` is written from the spec's
words; the code side is `formatMessage`). -/
theorem c4_role_resolution (m fm : Val) (h : formatMessage m = .ok fm) :
    fieldOf fm "role" = some (.vStr (roleSpec (className m))) := by
  obtain ⟨c, tf, _, _, hfm⟩ := (formatMessage_ok_iff m fm).mp h
  subst hfm
  simp [fieldOf, alookup, roleForMessage_eq_roleSpec]

/-- Closed instance of C4: a `HumanMessage` formats with role `"user"`,
matching the spec cascade. -/
theorem c4_role_resolution_witness :
    formatMessage (.vObj "HumanMessage" [("content", .vStr "Hello")]) =
      .ok (.vDict [("role", .vStr "user"), ("content", .vStr "Hello")]) ∧
    roleSpec (className (.vObj "HumanMessage" [("content", .vStr "Hello")])) = "user" ∧
    fieldOf (.vDict [("role", .vStr "user"), ("content", .vStr "Hello")]) "role" =
      some (.vStr (roleSpec (className (.vObj "HumanMessage" [("content", .vStr "Hello")])))) :=
  ⟨rfl, rfl, c4_role_resolution _ _ rfl⟩

theorem exc_pure_bind {α β : Type} (a : α) (f : α → Except Exc β) :
    ((pure a : Except Exc α) >>= f) = f a := rfl

/-- Modelled from the spec's words (§4.4 content resolution): the text a
content part contributes — a bare string contributes itself, a mapping with
`type == "text"` contributes its text field, anything else is dropped. -/
def partTextSpec : Val → Option String
  | .vStr s => some s
  | .vDict kvs =>
    if typeIsText (alookup kvs "type") then
      some (match alookup kvs "text" with | some (.vStr s) => s | _ => "")
    else none
  | _ => none

/-- Modelled from the spec's words: space-joined concatenation. -/
def joinSpaced : List String → String
  | [] => ""
  | [s] => s
  | s :: rest => s ++ " " ++ joinSpaced rest

/-- Modelled from the spec's words: the space-joined concatenation, in
original order, of the text of every matching content part. -/
def contentSpec (parts : List Val) : String :=
  joinSpaced (parts.filterMap partTextSpec)

theorem pyJoin_ok_strings : ∀ (vparts : List Val) (c : String),
    pyJoin " " vparts = .ok c →
    ∃ ss : List String, vparts = ss.map Val.vStr ∧ c = joinSpaced ss := by
  intro vparts
  induction vparts with
  | nil =>
    intro c h
    simp [pyJoin] at h
    exact ⟨[], rfl, by simp [joinSpaced, ← h]⟩
  | cons p rest ih =>
    intro c h
    cases rest with
    | nil =>
      cases p with
      | vStr s =>
        simp [pyJoin] at h
        exact ⟨[s], rfl, by simp [joinSpaced, ← h]⟩
      | vNone => simp [pyJoin] at h
      | vBool b => simp [pyJoin] at h
      | vInt n => simp [pyJoin] at h
      | vList xs => simp [pyJoin] at h
      | vDict kvs => simp [pyJoin] at h
      | vObj cls attrs => simp [pyJoin] at h
    | cons q rest' =>
      cases p with
      | vStr s =>
        simp only [pyJoin] at h
        cases hres : pyJoin " " (q :: rest') with
        | error e => rw [hres] at h; simp [exc_pure_bind, exc_bind_error] at h
        | ok t =>
          rw [hres] at h
          simp [exc_pure_bind, exc_bind_ok] at h
          obtain ⟨ss, hmap, hjoin⟩ := ih t hres
          cases ss with
          | nil => simp at hmap
          | cons s0 ss' =>
            refine ⟨s :: s0 :: ss', by simp [hmap], ?_⟩
            have hstep : joinSpaced (s :: s0 :: ss') = s ++ " " ++ joinSpaced (s0 :: ss') := rfl
            rw [hstep, ← hjoin, ← h]
      | vNone => simp only [pyJoin] at h; simp [exc_bind_error] at h
      | vBool b => simp only [pyJoin] at h; simp [exc_bind_error] at h
      | vInt n => simp only [pyJoin] at h; simp [exc_bind_error] at h
      | vList xs => simp only [pyJoin] at h; simp [exc_bind_error] at h
      | vDict kvs => simp only [pyJoin] at h; simp [exc_bind_error] at h
      | vObj cls attrs => simp only [pyJoin] at h; simp [exc_bind_error] at h

theorem textPartsOf_strings : ∀ (parts : List Val) (ss : List String),
    textPartsOf parts = ss.map Val.vStr → parts.filterMap partTextSpec = ss := by
  intro parts
  induction parts with
  | nil => intro ss h; simp [textPartsOf] at h; simp [← h]
  | cons p rest ih =>
    intro ss h
    cases p with
    | vDict kvs =>
      by_cases htype : typeIsText (alookup kvs "type")
      · simp [textPartsOf, htype] at h
        cases ss with
        | nil => simp at h
        | cons s0 ss' =>
          simp at h
          obtain ⟨h1, h2⟩ := h
          have hrest := ih ss' h2
          simp [partTextSpec, htype, hrest]
          cases htext : alookup kvs "text" with
          | none => simp [dictGetD, htext] at h1; simp [htext, h1]
          | some v =>
            cases v with
            | vStr u => simp [dictGetD, htext] at h1; simp [htext, h1]
            | vNone => simp [dictGetD, htext] at h1
            | vBool b => simp [dictGetD, htext] at h1
            | vInt n => simp [dictGetD, htext] at h1
            | vList xs => simp [dictGetD, htext] at h1
            | vDict kvs2 => simp [dictGetD, htext] at h1
            | vObj cls attrs => simp [dictGetD, htext] at h1
      · simp [textPartsOf, htype] at h
        simp [partTextSpec, htype, ih ss h]
    | vStr s =>
      simp [textPartsOf] at h
      cases ss with
      | nil => simp at h
      | cons s0 ss' =>
        simp at h
        obtain ⟨h1, h2⟩ := h
        simp [partTextSpec, h1, ih ss' h2]
    | vNone => simp [textPartsOf] at h; simp [partTextSpec, ih ss h]
    | vBool b => simp [textPartsOf] at h; simp [partTextSpec, ih ss h]
    | vInt n => simp [textPartsOf] at h; simp [partTextSpec, ih ss h]
    | vList xs => simp [textPartsOf] at h; simp [partTextSpec, ih ss h]
    | vObj cls attrs => simp [textPartsOf] at h; simp [partTextSpec, ih ss h]

theorem attrOf_some_hasattr (m : Val) (a : String) (v : Val) (h : attrOf m a = some v) :
    hasattr m a = true ∧ getattrD m a = v := by
  cases m with
  | vObj cls attrs =>
    simp [attrOf] at h
    simp [hasattr, getattrD, getattrE, h]
  | vNone => simp [attrOf] at h
  | vBool b => simp [attrOf] at h
  | vInt n => simp [attrOf] at h
  | vStr s => simp [attrOf] at h
  | vList xs => simp [attrOf] at h
  | vDict kvs => simp [attrOf] at h

theorem attrOf_none_hasattr (m : Val) (a : String) (h : attrOf m a = none) :
    hasattr m a = false := by
  cases m with
  | vObj cls attrs => simp [attrOf] at h; simp [hasattr, h]
  | vNone => simp [hasattr]
  | vBool b => simp [hasattr]
  | vInt n => simp [hasattr]
  | vStr s => simp [hasattr]
  | vList xs => simp [hasattr]
  | vDict kvs => simp [hasattr]

/-- C5: the formatted content of a message is the content string itself
when the content attribute is a plain string, the empty string when the
attribute is absent, and — when the attribute is a list — the space-joined
concatenation, in original order, of the text of every part that is a bare
string or a `type == "text"` mapping, with all other parts dropped
(`contentSpec` is written from the spec's words). -/
theorem c5_content_resolution (m fm : Val) (h : formatMessage m = .ok fm) :
    (∀ s, attrOf m "content" = some (.vStr s) → fieldOf fm "content" = some (.vStr s)) ∧
    (attrOf m "content" = none → fieldOf fm "content" = some (.vStr "")) ∧
    (∀ parts, attrOf m "content" = some (.vList parts) →
      fieldOf fm "content" = some (.vStr (contentSpec parts))) := by
  obtain ⟨c, tf, hc, htf, hfm⟩ := (formatMessage_ok_iff m fm).mp h
  subst hfm
  have hfield : fieldOf
      (Val.vDict ([("role", Val.vStr (roleForMessage m)), ("content", Val.vStr c)]
        ++ tf ++ idField m)) "content" = some (.vStr c) := by
    simp [fieldOf, alookup]
  refine ⟨?_, ?_, ?_⟩
  · intro s hs
    obtain ⟨hh, hg⟩ := attrOf_some_hasattr m "content" _ hs
    rw [extractContent, if_pos hh, hg] at hc
    simp at hc
    rw [hfield, hc]
  · intro hn
    rw [extractContent, if_neg (by simp [attrOf_none_hasattr m "content" hn])] at hc
    simp at hc
    rw [hfield, hc]
  · intro parts hp
    obtain ⟨hh, hg⟩ := attrOf_some_hasattr m "content" _ hp
    rw [extractContent, if_pos hh, hg] at hc
    obtain ⟨ss, hmap, hjoin⟩ := pyJoin_ok_strings _ _ hc
    rw [hfield, hjoin, contentSpec, textPartsOf_strings parts ss hmap]

/-- Closed instance of C5: the spec's two-part example formats to
`"Part 1 Part 2"`. -/
theorem c5_content_resolution_witness :
    formatMessage (.vObj "HumanMessage"
      [("content", .vList [.vDict [("type", .vStr "text"), ("text", .vStr "Part 1")],
        .vDict [("type", .vStr "text"), ("text", .vStr "Part 2")]])]) =
      .ok (.vDict [("role", .vStr "user"), ("content", .vStr "Part 1 Part 2")]) ∧
    contentSpec [.vDict [("type", .vStr "text"), ("text", .vStr "Part 1")],
      .vDict [("type", .vStr "text"), ("text", .vStr "Part 2")]] = "Part 1 Part 2" ∧
    fieldOf (.vDict [("role", .vStr "user"), ("content", .vStr "Part 1 Part 2")]) "content" =
      some (.vStr (contentSpec [.vDict [("type", .vStr "text"), ("text", .vStr "Part 1")],
        .vDict [("type", .vStr "text"), ("text", .vStr "Part 2")]])) :=
  ⟨rfl, rfl,
    (c5_content_resolution
      (.vObj "HumanMessage"
        [("content", .vList [.vDict [("type", .vStr "text"), ("text", .vStr "Part 1")],
          .vDict [("type", .vStr "text"), ("text", .vStr "Part 2")]])])
      (.vDict [("role", .vStr "user"), ("content", .vStr "Part 1 Part 2")]) rfl).2.2
      [.vDict [("type", .vStr "text"), ("text", .vStr "Part 1")],
        .vDict [("type", .vStr "text"), ("text", .vStr "Part 2")]] rfl⟩

/-- C7: a message with a non-empty tool-call list gets a `tool_calls` field
holding the in-order formatting of every call; each call formats to
`{id, type: "function", function: {name, arguments}}` with `arguments` the
JSON serialisation of the call's argument mapping, or `""` when the call
has no arguments; and the spec's concrete example formats exactly as the
claim states. -/
theorem c7_tool_call_projection :
    (∀ m fm tcs, formatMessage m = .ok fm → attrOf m "tool_calls" = some (.vList tcs) →
      tcs ≠ [] → ∃ fs, formatToolCallList tcs = .ok fs ∧
        fieldOf fm "tool_calls" = some (.vList fs)) ∧
    (∀ id name argkvs astr, argkvs ≠ [] → jsonDumps (.vDict argkvs) = .ok astr →
      formatToolCall (.vDict [("id", .vStr id), ("name", .vStr name), ("args", .vDict argkvs)]) =
        .ok (.vDict [("id", .vStr id), ("type", .vStr "function"),
          ("function", .vDict [("name", .vStr name), ("arguments", .vStr astr)])])) ∧
    (∀ id name, formatToolCall (.vDict [("id", .vStr id), ("name", .vStr name)]) =
      .ok (.vDict [("id", .vStr id), ("type", .vStr "function"),
        ("function", .vDict [("name", .vStr name), ("arguments", .vStr "")])])) ∧
    formatMessage (.vObj "AIMessage" [("content", .vStr ""),
      ("tool_calls", .vList [.vDict [("id", .vStr "call_123"), ("name", .vStr "search"),
        ("args", .vDict [("query", .vStr "test")])]])]) =
      .ok (.vDict [("role", .vStr "assistant"), ("content", .vStr ""),
        ("tool_calls", .vList [.vDict [("id", .vStr "call_123"), ("type", .vStr "function"),
          ("function", .vDict [("name", .vStr "search"),
            ("arguments", .vStr "\x7b\"query\": \"test\"\x7d")])]])]) := by
  refine ⟨?_, ?_, ?_, rfl⟩
  · intro m fm tcs h hattr hne
    obtain ⟨c, tf, hc, htf, hfm⟩ := (formatMessage_ok_iff m fm).mp h
    subst hfm
    obtain ⟨hh, hg⟩ := attrOf_some_hasattr m "tool_calls" _ hattr
    have htruthy : truthy (getattrD m "tool_calls") = true := by
      rw [hg]; cases tcs with
      | nil => exact absurd rfl hne
      | cons t ts => simp [truthy]
    rw [toolField, if_pos (by simp [hh, htruthy])] at htf
    rw [hg] at htf
    simp only [pyIter, exc_bind_ok] at htf
    cases hfl : formatToolCallList tcs with
    | error e => rw [hfl] at htf; simp [exc_bind_error] at htf
    | ok fs =>
      rw [hfl] at htf
      simp [exc_bind_ok, exc_pure_bind] at htf
      refine ⟨fs, rfl, ?_⟩
      rw [← htf]
      simp [fieldOf, alookup]
  · intro id name argkvs astr hne hdump
    cases argkvs with
    | nil => exact absurd rfl hne
    | cons kv rest =>
      simp only [formatToolCall, pyGetD, pyGet, dictGetD, alookup]
      simp only [exc_pure_bind, exc_bind_ok]
      simp [truthy, hdump, exc_bind_ok, exc_pure_bind]
  · intro id name
    simp [formatToolCall, pyGetD, pyGet, dictGetD, alookup, truthy,
      exc_pure_bind, exc_bind_ok]

/-- Closed instance of C7 at the spec's example tool call. -/
theorem c7_tool_call_projection_witness :
    formatToolCall (.vDict [("id", .vStr "call_123"), ("name", .vStr "search"),
      ("args", .vDict [("query", .vStr "test")])]) =
      .ok (.vDict [("id", .vStr "call_123"), ("type", .vStr "function"),
        ("function", .vDict [("name", .vStr "search"),
          ("arguments", .vStr "\x7b\"query\": \"test\"\x7d")])]) ∧
    (∃ fs, formatToolCallList [.vDict [("id", .vStr "call_123"), ("name", .vStr "search"),
        ("args", .vDict [("query", .vStr "test")])]] = .ok fs ∧
      fieldOf (.vDict [("role", .vStr "assistant"), ("content", .vStr ""),
        ("tool_calls", .vList [.vDict [("id", .vStr "call_123"), ("type", .vStr "function"),
          ("function", .vDict [("name", .vStr "search"),
            ("arguments", .vStr "\x7b\"query\": \"test\"\x7d")])]])]) "tool_calls" =
        some (.vList fs)) ∧
    formatToolCall (.vDict [("id", .vStr "a"), ("name", .vStr "b")]) =
      .ok (.vDict [("id", .vStr "a"), ("type", .vStr "function"),
        ("function", .vDict [("name", .vStr "b"), ("arguments", .vStr "")])]) :=
  ⟨c7_tool_call_projection.2.1 "call_123" "search" [("query", .vStr "test")]
      "\x7b\"query\": \"test\"\x7d" (List.cons_ne_nil _ _) rfl,
    c7_tool_call_projection.1
      (.vObj "AIMessage" [("content", .vStr ""),
        ("tool_calls", .vList [.vDict [("id", .vStr "call_123"), ("name", .vStr "search"),
          ("args", .vDict [("query", .vStr "test")])]])])
      (.vDict [("role", .vStr "assistant"), ("content", .vStr ""),
        ("tool_calls", .vList [.vDict [("id", .vStr "call_123"), ("type", .vStr "function"),
          ("function", .vDict [("name", .vStr "search"),
            ("arguments", .vStr "\x7b\"query\": \"test\"\x7d")])]])])
      [.vDict [("id", .vStr "call_123"), ("name", .vStr "search"),
        ("args", .vDict [("query", .vStr "test")])]] rfl rfl (List.cons_ne_nil _ _),
    c7_tool_call_projection.2.2.1 "a" "b"⟩

/-- The exceptions recorded on a span, in order. -/
def exnRecords (evs : List SpanEvent) : List Exc :=
  evs.filterMap fun ev => match ev with | .recordException e => some e | _ => none

theorem exnRecords_setAttrs (attrs : List (String × Val)) :
    exnRecords (setAttrs attrs) = [] := by
  induction attrs with
  | nil => rfl
  | cons p rest ih =>
    have hstep : exnRecords (setAttrs (p :: rest)) = exnRecords (setAttrs rest) := rfl
    rw [hstep, ih]

theorem exnRecords_append (l1 l2 : List SpanEvent) :
    exnRecords (l1 ++ l2) = exnRecords l1 ++ exnRecords l2 := by
  simp [exnRecords]

theorem tracedInvoke_userError (spanName : String) (llm : Val) (messages : List Val)
    (kwargs : List (String × Val)) (e : Exc)
    (hreq : (set_vertexai_attributes llm messages kwargs).2 = none) :
    tracedInvoke spanName llm messages kwargs (.error e) =
      (⟨spanName, setAttrs (set_vertexai_attributes llm messages kwargs).1
        ++ [.delegated, .recordException e, .setStatus .error (some e.message)]⟩, .error e) := by
  unfold tracedInvoke
  rw [hreq]

/-- C2: when the delegated call raises, both wrappers re-raise that same
exception value unchanged, record it on the span exactly once, and finish
the span with status ERROR carrying `str(e)` as the final operation. -/
theorem c2_exception_passthrough (llm : Val) (messages : List Val)
    (kwargs : List (String × Val)) (e : Exc)
    (hreq : (set_vertexai_attributes llm messages kwargs).2 = none) :
    ((traced_generate llm messages kwargs (.error e)).2 = .error e) ∧
    (exnRecords (traced_generate llm messages kwargs (.error e)).1.events = [e]) ∧
    (∃ pre, (traced_generate llm messages kwargs (.error e)).1.events =
      pre ++ [.recordException e, .setStatus .error (some e.message)]) ∧
    ((traced_agenerate llm messages kwargs (.error e)).2 = .error e) ∧
    (exnRecords (traced_agenerate llm messages kwargs (.error e)).1.events = [e]) ∧
    (∃ pre, (traced_agenerate llm messages kwargs (.error e)).1.events =
      pre ++ [.recordException e, .setStatus .error (some e.message)]) := by
  have hg := tracedInvoke_userError "vertexai.chat.generate" llm messages kwargs e hreq
  have ha := tracedInvoke_userError "vertexai.chat.agenerate" llm messages kwargs e hreq
  unfold traced_generate traced_agenerate
  rw [hg, ha]
  dsimp only
  refine ⟨rfl, ?_, ?_, rfl, ?_, ?_⟩
  · rw [exnRecords_append, exnRecords_setAttrs]
    rfl
  · exact ⟨setAttrs (set_vertexai_attributes llm messages kwargs).1 ++ [.delegated], by simp⟩
  · rw [exnRecords_append, exnRecords_setAttrs]
    rfl
  · exact ⟨setAttrs (set_vertexai_attributes llm messages kwargs).1 ++ [.delegated], by simp⟩

/-- Closed instance of C2 at a one-field client and a model-call failure. -/
theorem c2_exception_passthrough_witness :
    ((traced_generate (.vObj "ChatVertexAI" [("model_name", .vStr "gemini-2.0-flash")]) [] []
      (.error (.userExc "API error" .vNone))).2 = .error (.userExc "API error" .vNone)) ∧
    (exnRecords (traced_generate (.vObj "ChatVertexAI" [("model_name", .vStr "gemini-2.0-flash")])
      [] [] (.error (.userExc "API error" .vNone))).1.events = [.userExc "API error" .vNone]) ∧
    (∃ pre, (traced_generate (.vObj "ChatVertexAI" [("model_name", .vStr "gemini-2.0-flash")])
      [] [] (.error (.userExc "API error" .vNone))).1.events =
      pre ++ [.recordException (.userExc "API error" .vNone),
        .setStatus .error (some (Exc.userExc "API error" .vNone).message)]) ∧
    ((traced_agenerate (.vObj "ChatVertexAI" [("model_name", .vStr "gemini-2.0-flash")]) [] []
      (.error (.userExc "API error" .vNone))).2 = .error (.userExc "API error" .vNone)) ∧
    (exnRecords (traced_agenerate (.vObj "ChatVertexAI" [("model_name", .vStr "gemini-2.0-flash")])
      [] [] (.error (.userExc "API error" .vNone))).1.events = [.userExc "API error" .vNone]) ∧
    (∃ pre, (traced_agenerate (.vObj "ChatVertexAI" [("model_name", .vStr "gemini-2.0-flash")])
      [] [] (.error (.userExc "API error" .vNone))).1.events =
      pre ++ [.recordException (.userExc "API error" .vNone),
        .setStatus .error (some (Exc.userExc "API error" .vNone).message)]) :=
  c2_exception_passthrough (.vObj "ChatVertexAI" [("model_name", .vStr "gemini-2.0-flash")])
    [] [] (.userExc "API error" .vNone) rfl

theorem tracedInvoke_ok_shape (spanName : String) (llm : Val) (messages : List Val)
    (kwargs : List (String × Val)) (callResult : Except Exc Val) (tr : SpanTrace) (r : Val)
    (h : tracedInvoke spanName llm messages kwargs callResult = (tr, .ok r)) :
    callResult = .ok r ∧
    (set_vertexai_attributes llm messages kwargs).2 = none ∧
    (set_response_attributes r).2 = none ∧
    tr.events = setAttrs (set_vertexai_attributes llm messages kwargs).1 ++ [.delegated]
      ++ setAttrs (set_response_attributes r).1 ++ [.setStatus .ok none] := by
  unfold tracedInvoke at h
  cases herr : (set_vertexai_attributes llm messages kwargs).2 with
  | some e => rw [herr] at h; simp at h
  | none =>
    rw [herr] at h
    dsimp only at h
    cases callResult with
    | error e => simp at h
    | ok result =>
      dsimp only at h
      cases herr2 : (set_response_attributes result).2 with
      | some e => rw [herr2] at h; simp at h
      | none =>
        rw [herr2] at h
        simp at h
        obtain ⟨htr, hr⟩ := h
        subst hr
        exact ⟨rfl, rfl, herr2, by rw [← htr]; simp⟩

theorem tracedInvoke_req_prefix (spanName : String) (llm : Val) (messages : List Val)
    (kwargs : List (String × Val)) (callResult : Except Exc Val) :
    ∃ rest, (tracedInvoke spanName llm messages kwargs callResult).1.events =
      setAttrs (set_vertexai_attributes llm messages kwargs).1 ++ rest := by
  unfold tracedInvoke
  cases herr : (set_vertexai_attributes llm messages kwargs).2 with
  | some e => exact ⟨_, rfl⟩
  | none =>
    cases callResult with
    | error e => exact ⟨_, rfl⟩
    | ok result =>
      dsimp only
      cases herr2 : (set_response_attributes result).2 with
      | some e =>
        exact ⟨[SpanEvent.delegated] ++ setAttrs (set_response_attributes result).1
          ++ [.recordException e, .setStatus .error (some e.message)], by simp⟩
      | none =>
        exact ⟨[SpanEvent.delegated] ++ setAttrs (set_response_attributes result).1
          ++ [.setStatus .ok none], by simp⟩

/-- C8: in both wrappers, a successful invocation's span trace is exactly
the request attributes, then the delegated call, then the response
attributes, then the OK status — so every request attribute is recorded
before the delegated call begins, response attributes only after it returns
successfully, status OK last; and on every invocation (successful or not)
the trace starts with the full block of recorded request attributes, with
nothing interleaved. -/
theorem c8_attribute_ordering :
    (∀ llm messages kwargs callResult tr r,
      traced_generate llm messages kwargs callResult = (tr, .ok r) →
      callResult = .ok r ∧
      (set_vertexai_attributes llm messages kwargs).2 = none ∧
      (set_response_attributes r).2 = none ∧
      tr.events = setAttrs (set_vertexai_attributes llm messages kwargs).1 ++ [.delegated]
        ++ setAttrs (set_response_attributes r).1 ++ [.setStatus .ok none]) ∧
    (∀ llm messages kwargs callResult tr r,
      traced_agenerate llm messages kwargs callResult = (tr, .ok r) →
      callResult = .ok r ∧
      (set_vertexai_attributes llm messages kwargs).2 = none ∧
      (set_response_attributes r).2 = none ∧
      tr.events = setAttrs (set_vertexai_attributes llm messages kwargs).1 ++ [.delegated]
        ++ setAttrs (set_response_attributes r).1 ++ [.setStatus .ok none]) ∧
    (∀ llm messages kwargs callResult,
      ∃ rest, (traced_generate llm messages kwargs callResult).1.events =
        setAttrs (set_vertexai_attributes llm messages kwargs).1 ++ rest) ∧
    (∀ llm messages kwargs callResult,
      ∃ rest, (traced_agenerate llm messages kwargs callResult).1.events =
        setAttrs (set_vertexai_attributes llm messages kwargs).1 ++ rest) :=
  ⟨fun llm messages kwargs callResult tr r h =>
      tracedInvoke_ok_shape "vertexai.chat.generate" llm messages kwargs callResult tr r h,
    fun llm messages kwargs callResult tr r h =>
      tracedInvoke_ok_shape "vertexai.chat.agenerate" llm messages kwargs callResult tr r h,
    fun llm messages kwargs callResult =>
      tracedInvoke_req_prefix "vertexai.chat.generate" llm messages kwargs callResult,
    fun llm messages kwargs callResult =>
      tracedInvoke_req_prefix "vertexai.chat.agenerate" llm messages kwargs callResult⟩

/-- Closed instance of C8 on a successful invocation. -/
theorem c8_attribute_ordering_witness :
    (Except.ok Val.vNone : Except Exc Val) = .ok Val.vNone ∧
    (set_vertexai_attributes (.vObj "ChatVertexAI" [("model_name", .vStr "gemini-2.0-flash")])
      [] []).2 = none ∧
    (set_response_attributes .vNone).2 = none ∧
    (traced_generate (.vObj "ChatVertexAI" [("model_name", .vStr "gemini-2.0-flash")]) [] []
      (.ok .vNone)).1.events =
      setAttrs (set_vertexai_attributes
        (.vObj "ChatVertexAI" [("model_name", .vStr "gemini-2.0-flash")]) [] []).1
        ++ [.delegated] ++ setAttrs (set_response_attributes .vNone).1
        ++ [.setStatus .ok none] :=
  c8_attribute_ordering.1 (.vObj "ChatVertexAI" [("model_name", .vStr "gemini-2.0-flash")])
    [] [] (.ok .vNone)
    (traced_generate (.vObj "ChatVertexAI" [("model_name", .vStr "gemini-2.0-flash")]) [] []
      (.ok .vNone)).1 .vNone rfl

/-- The three usage-token groups of `_set_response_attributes` (source
lines 114-127): GenAI-convention key, provider-native synonym, span
attribute name. -/
def usageGroups : List (String × String × String) :=
  [("input_tokens", "prompt_token_count", "gen_ai.usage.input_tokens"),
   ("output_tokens", "candidates_token_count", "gen_ai.usage.output_tokens"),
   ("total_tokens", "total_token_count", "gen_ai.usage.total_tokens")]

/-- C10: a token count that resolves to 0 is omitted (the extractor tests
the value's truthiness, not the key's presence), and a GenAI-convention key
holding 0 falls through to the provider-native synonym even though the
GenAI key is present; the usage block is the concatenation of the three
group extractions. -/
theorem c10_usage_truthiness :
    (∀ gk nk an, (gk, nk, an) ∈ usageGroups → ∀ kvs,
      dictGet kvs gk = .vInt 0 → alookup kvs nk = none →
      usageGroupEvents kvs gk nk an = []) ∧
    (∀ gk nk an, (gk, nk, an) ∈ usageGroups → ∀ kvs v,
      dictGet kvs gk = .vInt 0 → alookup kvs nk = some v → truthy v = true →
      usageGroupEvents kvs gk nk an = [(an, v)]) ∧
    (∀ cls kvs, kvs ≠ [] →
      usageEvents (.vObj cls [("usage_metadata", .vDict kvs)]) =
        usageGroupEvents kvs "input_tokens" "prompt_token_count" "gen_ai.usage.input_tokens"
        ++ usageGroupEvents kvs "output_tokens" "candidates_token_count"
          "gen_ai.usage.output_tokens"
        ++ usageGroupEvents kvs "total_tokens" "total_token_count"
          "gen_ai.usage.total_tokens") := by
  refine ⟨?_, ?_, ?_⟩
  · intro gk nk an _ kvs hz hn
    have halk : alookup kvs gk = some (.vInt 0) := by
      cases h' : alookup kvs gk with
      | none => rw [dictGet, h'] at hz; simp at hz
      | some w => rw [dictGet, h'] at hz; simp at hz; rw [hz]
    simp [usageGroupEvents, halk, hn, dictGet, truthy]
  · intro gk nk an _ kvs v hz hn hv
    have halk : alookup kvs gk = some (.vInt 0) := by
      cases h' : alookup kvs gk with
      | none => rw [dictGet, h'] at hz; simp at hz
      | some w => rw [dictGet, h'] at hz; simp at hz; rw [hz]
    simp [usageGroupEvents, halk, dictGet, hn, truthy, hv]
    simpa [truthy] using hv
  · intro cls kvs hne
    have htr : truthy (Val.vDict kvs) = true := by
      cases kvs with
      | nil => exact absurd rfl hne
      | cons kv rest => simp [truthy]
    simp [usageEvents, hasattr, getattrD, getattrE, alookup, htr]

/-- Closed instance of C10: a 0-valued count is omitted; with the native
synonym also present, its value 10 is recorded instead. -/
theorem c10_usage_truthiness_witness :
    usageGroupEvents [("input_tokens", Val.vInt 0)] "input_tokens" "prompt_token_count"
      "gen_ai.usage.input_tokens" = [] ∧
    usageGroupEvents [("input_tokens", Val.vInt 0), ("prompt_token_count", Val.vInt 10)]
      "input_tokens" "prompt_token_count" "gen_ai.usage.input_tokens" =
      [("gen_ai.usage.input_tokens", Val.vInt 10)] ∧
    usageEvents (.vObj "AIMessage" [("usage_metadata",
      .vDict [("input_tokens", Val.vInt 0), ("prompt_token_count", Val.vInt 10)])]) =
      usageGroupEvents [("input_tokens", Val.vInt 0), ("prompt_token_count", Val.vInt 10)]
        "input_tokens" "prompt_token_count" "gen_ai.usage.input_tokens"
      ++ usageGroupEvents [("input_tokens", Val.vInt 0), ("prompt_token_count", Val.vInt 10)]
        "output_tokens" "candidates_token_count" "gen_ai.usage.output_tokens"
      ++ usageGroupEvents [("input_tokens", Val.vInt 0), ("prompt_token_count", Val.vInt 10)]
        "total_tokens" "total_token_count" "gen_ai.usage.total_tokens" :=
  ⟨c10_usage_truthiness.1 "input_tokens" "prompt_token_count" "gen_ai.usage.input_tokens"
      (by simp [usageGroups]) [("input_tokens", Val.vInt 0)] rfl rfl,
    c10_usage_truthiness.2.1 "input_tokens" "prompt_token_count" "gen_ai.usage.input_tokens"
      (by simp [usageGroups]) [("input_tokens", Val.vInt 0), ("prompt_token_count", Val.vInt 10)]
      (Val.vInt 10) rfl rfl rfl,
    c10_usage_truthiness.2.2 "AIMessage"
      [("input_tokens", Val.vInt 0), ("prompt_token_count", Val.vInt 10)]
      (List.cons_ne_nil _ _)⟩

/-- C6 counterexample: with `{"input_tokens": 0, "prompt_token_count": 10}`
the GenAI-convention key is present, yet the provider-native value 10 is
what gets recorded (neither omission nor the GenAI value 0) — refuting
"the provider-native keys take effect exactly when the GenAI-convention
keys are absent". -/
theorem c6_counterexample :
    (alookup [("input_tokens", Val.vInt 0), ("prompt_token_count", Val.vInt 10)]
      "input_tokens").isSome = true ∧
    usageGroupEvents [("input_tokens", Val.vInt 0), ("prompt_token_count", Val.vInt 10)]
      "input_tokens" "prompt_token_count" "gen_ai.usage.input_tokens" =
      [("gen_ai.usage.input_tokens", Val.vInt 10)] ∧
    ¬ (usageGroupEvents [("input_tokens", Val.vInt 0), ("prompt_token_count", Val.vInt 10)]
        "input_tokens" "prompt_token_count" "gen_ai.usage.input_tokens" = [] ∨
      usageGroupEvents [("input_tokens", Val.vInt 0), ("prompt_token_count", Val.vInt 10)]
        "input_tokens" "prompt_token_count" "gen_ai.usage.input_tokens" =
        [("gen_ai.usage.input_tokens", Val.vInt 0)]) ∧
    (set_response_attributes (.vObj "LLMResult" [("generations", .vList [.vObj "ChatGeneration"
      [("message", .vObj "AIMessage" [("content", .vStr "x"), ("usage_metadata",
        .vDict [("input_tokens", Val.vInt 0), ("prompt_token_count", Val.vInt 10)])])]])])).1 =
      [("gen_ai.usage.input_tokens", Val.vInt 10),
       ("gen_ai.output.messages",
        Val.vStr "[\x7b\"role\": \"assistant\", \"content\": \"x\"\x7d]")] := by
  refine ⟨rfl, rfl, ?_, rfl⟩
  intro h
  cases h with
  | inl h => simp [usageGroupEvents, alookup, dictGet, truthy] at h
  | inr h =>
    rw [show usageGroupEvents [("input_tokens", Val.vInt 0), ("prompt_token_count", Val.vInt 10)]
      "input_tokens" "prompt_token_count" "gen_ai.usage.input_tokens" =
      [("gen_ai.usage.input_tokens", Val.vInt 10)] from rfl] at h
    simp [Val.vInt.injEq] at h

/-- C6 as amended: for dict-shaped usage, when either key of a group is
present the recorded value is the GenAI-convention value when truthy,
otherwise the provider-native value when truthy, otherwise nothing — the
native keys take effect exactly when the GenAI keys are absent or falsy
(and the native value itself truthy); the spec's 10/20/30 example holds,
and object-shaped usage with provider-native field names is extracted. -/
theorem c6_usage_synonyms_amended :
    (∀ gk nk an, (gk, nk, an) ∈ usageGroups → ∀ kvs,
      ((alookup kvs gk).isSome || (alookup kvs nk).isSome) = true →
      usageGroupEvents kvs gk nk an =
        (if truthy (dictGet kvs gk) then [(an, dictGet kvs gk)]
         else if truthy (dictGet kvs nk) then [(an, dictGet kvs nk)]
         else [])) ∧
    (∀ gk nk an, (gk, nk, an) ∈ usageGroups → ∀ kvs,
      alookup kvs gk = none → alookup kvs nk = none →
      usageGroupEvents kvs gk nk an = []) ∧
    ((set_response_attributes (.vObj "LLMResult" [("generations", .vList [.vObj "ChatGeneration"
      [("message", .vObj "AIMessage" [("content", .vStr "ok"), ("usage_metadata",
        .vDict [("prompt_token_count", Val.vInt 10), ("candidates_token_count", Val.vInt 20),
          ("total_token_count", Val.vInt 30)])])]])])).1 =
      [("gen_ai.usage.input_tokens", Val.vInt 10),
       ("gen_ai.usage.output_tokens", Val.vInt 20),
       ("gen_ai.usage.total_tokens", Val.vInt 30),
       ("gen_ai.output.messages",
        Val.vStr "[\x7b\"role\": \"assistant\", \"content\": \"ok\"\x7d]")]) ∧
    (∀ cls cls2 p c t, usageEvents (.vObj cls [("usage_metadata",
        .vObj cls2 [("prompt_token_count", p), ("candidates_token_count", c),
          ("total_token_count", t)])]) =
      [("gen_ai.usage.input_tokens", p), ("gen_ai.usage.output_tokens", c),
       ("gen_ai.usage.total_tokens", t)]) := by
  refine ⟨?_, ?_, rfl, ?_⟩
  · intro gk nk an _ kvs hgate
    by_cases hg : truthy (dictGet kvs gk) = true
    · simp [usageGroupEvents, hgate, hg]
    · simp at hg
      by_cases hn : truthy (dictGet kvs nk) = true
      · simp [usageGroupEvents, hgate, hg, hn]
      · simp at hn
        simp [usageGroupEvents, hgate, hg, hn]
  · intro gk nk an _ kvs h1 h2
    simp [usageGroupEvents, h1, h2]
  · intro cls cls2 p c t
    simp [usageEvents, usageObjEvents, hasattr, getattrD, getattrE, alookup, truthy]

/-- Closed instance of the amended C6. -/
theorem c6_usage_synonyms_amended_witness :
    usageGroupEvents [("prompt_token_count", Val.vInt 10)] "input_tokens" "prompt_token_count"
      "gen_ai.usage.input_tokens" =
      (if truthy (dictGet [("prompt_token_count", Val.vInt 10)] "input_tokens") then
        [("gen_ai.usage.input_tokens", dictGet [("prompt_token_count", Val.vInt 10)]
          "input_tokens")]
       else if truthy (dictGet [("prompt_token_count", Val.vInt 10)] "prompt_token_count") then
        [("gen_ai.usage.input_tokens", dictGet [("prompt_token_count", Val.vInt 10)]
          "prompt_token_count")]
       else []) ∧
    usageGroupEvents [] "input_tokens" "prompt_token_count" "gen_ai.usage.input_tokens" = [] ∧
    usageEvents (.vObj "AIMessage" [("usage_metadata", .vObj "UsageMetadata"
      [("prompt_token_count", Val.vInt 10), ("candidates_token_count", Val.vInt 20),
        ("total_token_count", Val.vInt 30)])]) =
      [("gen_ai.usage.input_tokens", Val.vInt 10), ("gen_ai.usage.output_tokens", Val.vInt 20),
       ("gen_ai.usage.total_tokens", Val.vInt 30)] :=
  ⟨c6_usage_synonyms_amended.1 "input_tokens" "prompt_token_count" "gen_ai.usage.input_tokens"
      (by simp [usageGroups]) [("prompt_token_count", Val.vInt 10)] rfl,
    c6_usage_synonyms_amended.2.1 "input_tokens" "prompt_token_count"
      "gen_ai.usage.input_tokens" (by simp [usageGroups]) [] rfl rfl,
    c6_usage_synonyms_amended.2.2.2 "AIMessage" "UsageMetadata"
      (Val.vInt 10) (Val.vInt 20) (Val.vInt 30)⟩



mutual

/-- Whether `json.dumps` accepts the value (no objects anywhere inside). -/
def jsonable : Val → Bool
  | .vNone => true
  | .vBool _ => true
  | .vInt _ => true
  | .vStr _ => true
  | .vList xs => jsonableList xs
  | .vDict kvs => jsonableKVs kvs
  | .vObj _ _ => false

/-- `jsonable` over the elements of a list. -/
def jsonableList : List Val → Bool
  | [] => true
  | v :: vs => jsonable v && jsonableList vs

/-- `jsonable` over the values of a dict. -/
def jsonableKVs : List (String × Val) → Bool
  | [] => true
  | (_, v) :: kvs => jsonable v && jsonableKVs kvs

end

/-- Whether a fallible computation succeeded. -/
def exOk {α : Type} : Except Exc α → Bool
  | .ok _ => true
  | .error _ => false

mutual

theorem jsonable_dumps : ∀ v, jsonable v = true → exOk (jsonDumps v) = true
  | .vNone, _ => rfl
  | .vBool true, _ => rfl
  | .vBool false, _ => rfl
  | .vInt _, _ => rfl
  | .vStr _, _ => rfl
  | .vList xs, h => by
    have hl := jsonableList_dumps xs (by simpa [jsonable] using h)
    simp only [jsonDumps]
    cases hres : jsonDumpsList xs with
    | error e => rw [hres] at hl; simp [exOk] at hl
    | ok ss => rfl
  | .vDict kvs, h => by
    have hl := jsonableKVs_dumps kvs (by simpa [jsonable] using h)
    simp only [jsonDumps]
    cases hres : jsonDumpsKVs kvs with
    | error e => rw [hres] at hl; simp [exOk] at hl
    | ok ss => rfl
  | .vObj _ _, h => by simp [jsonable] at h

theorem jsonableList_dumps : ∀ xs, jsonableList xs = true → exOk (jsonDumpsList xs) = true
  | [], _ => rfl
  | v :: vs, h => by
    have h1 : jsonable v = true := by
      have := h; simp [jsonableList] at this; exact this.1
    have h2 : jsonableList vs = true := by
      have := h; simp [jsonableList] at this; exact this.2
    have hd := jsonable_dumps v h1
    have ht := jsonableList_dumps vs h2
    simp only [jsonDumpsList]
    cases hres : jsonDumps v with
    | error e => rw [hres] at hd; simp [exOk] at hd
    | ok s =>
      cases hres2 : jsonDumpsList vs with
      | error e => rw [hres2] at ht; simp [exOk] at ht
      | ok ss => rfl

theorem jsonableKVs_dumps : ∀ kvs, jsonableKVs kvs = true → exOk (jsonDumpsKVs kvs) = true
  | [], _ => rfl
  | (k, v) :: kvs, h => by
    have h1 : jsonable v = true := by
      have := h; simp [jsonableKVs] at this; exact this.1
    have h2 : jsonableKVs kvs = true := by
      have := h; simp [jsonableKVs] at this; exact this.2
    have hd := jsonable_dumps v h1
    have ht := jsonableKVs_dumps kvs h2
    simp only [jsonDumpsKVs]
    cases hres : jsonDumps v with
    | error e => rw [hres] at hd; simp [exOk] at hd
    | ok s =>
      cases hres2 : jsonDumpsKVs kvs with
      | error e => rw [hres2] at ht; simp [exOk] at ht
      | ok ss => rfl

end



/-- A content part the formatter's space-join accepts: a text-typed mapping
must carry a string (or no) `text` field. -/
def wfPart : Val → Bool
  | .vDict kvs =>
    if typeIsText (alookup kvs "type") then
      (match alookup kvs "text" with
       | none => true
       | some (.vStr _) => true
       | some _ => false)
    else true
  | _ => true

/-- Well-shaped `content` attribute: list content has only acceptable parts. -/
def wfContent (m : Val) : Bool :=
  match attrOf m "content" with
  | some (.vList parts) => parts.all wfPart
  | _ => true

theorem textPartsOf_of_wf : ∀ parts : List Val, parts.all wfPart = true →
    ∃ ss : List String, textPartsOf parts = ss.map Val.vStr := by
  intro parts
  induction parts with
  | nil => intro h; exact ⟨[], rfl⟩
  | cons p rest ih =>
    intro h
    simp only [List.all_cons, Bool.and_eq_true] at h
    obtain ⟨hp, hrest⟩ := h
    obtain ⟨ss, hss⟩ := ih hrest
    cases p with
    | vDict kvs =>
      by_cases htype : typeIsText (alookup kvs "type") = true
      · cases htext : alookup kvs "text" with
        | none =>
          refine ⟨"" :: ss, ?_⟩
          simp [textPartsOf, htype, dictGetD, htext, hss]
        | some v =>
          cases v with
          | vStr u =>
            refine ⟨u :: ss, ?_⟩
            simp [textPartsOf, htype, dictGetD, htext, hss]
          | vNone => simp [wfPart, htype, htext] at hp
          | vBool b => simp [wfPart, htype, htext] at hp
          | vInt n => simp [wfPart, htype, htext] at hp
          | vList xs => simp [wfPart, htype, htext] at hp
          | vDict kvs2 => simp [wfPart, htype, htext] at hp
          | vObj cls attrs => simp [wfPart, htype, htext] at hp
      · refine ⟨ss, ?_⟩
        simp [textPartsOf, htype, hss]
    | vStr s =>
      refine ⟨s :: ss, ?_⟩
      simp [textPartsOf, hss]
    | vNone => exact ⟨ss, by simp [textPartsOf, hss]⟩
    | vBool b => exact ⟨ss, by simp [textPartsOf, hss]⟩
    | vInt n => exact ⟨ss, by simp [textPartsOf, hss]⟩
    | vList xs => exact ⟨ss, by simp [textPartsOf, hss]⟩
    | vObj cls attrs => exact ⟨ss, by simp [textPartsOf, hss]⟩

theorem pyJoin_strings_ok (sep : String) : ∀ ss : List String,
    exOk (pyJoin sep (ss.map Val.vStr)) = true := by
  intro ss
  induction ss with
  | nil => rfl
  | cons s rest ih =>
    cases rest with
    | nil => rfl
    | cons t rest' =>
      simp only [List.map, pyJoin]
      simp only [List.map] at ih
      cases hres : pyJoin sep (Val.vStr t :: rest'.map Val.vStr) with
      | error e => rw [hres] at ih; simp [exOk] at ih
      | ok u => simp [exc_pure_bind, hres, exc_bind_ok, exOk]

theorem extractContent_of_wf (m : Val) (h : wfContent m = true) :
    exOk (extractContent m) = true := by
  cases hattr : attrOf m "content" with
  | none =>
    rw [extractContent, if_neg (by simp [attrOf_none_hasattr m "content" hattr])]
    rfl
  | some v =>
    obtain ⟨hh, hg⟩ := attrOf_some_hasattr m "content" v hattr
    rw [extractContent, if_pos hh, hg]
    cases v with
    | vList parts =>
      have h' : parts.all wfPart = true := by
        rw [wfContent, hattr] at h
        exact h
      obtain ⟨ss, hss⟩ := textPartsOf_of_wf parts h'
      dsimp only
      rw [hss]
      exact pyJoin_strings_ok " " ss
    | vStr s => rfl
    | vNone => rfl
    | vBool b => rfl
    | vInt n => rfl
    | vDict kvs => rfl
    | vObj cls attrs => rfl



/-- A tool call the formatter accepts: a dict whose `id`/`name` values are
serialisable and whose `args`, when truthy, is serialisable. -/
def wfToolCall : Val → Bool
  | .vDict kvs =>
    jsonable (dictGetD kvs "id" (.vStr "")) && jsonable (dictGetD kvs "name" (.vStr "")) &&
      (!truthy (dictGet kvs "args") || jsonable (dictGetD kvs "args" (.vDict [])))
  | _ => false

/-- Well-shaped `tool_calls` attribute: when truthy it is a list of
acceptable tool-call dicts. -/
def wfToolCallsAttr (m : Val) : Bool :=
  match attrOf m "tool_calls" with
  | none => true
  | some v => !truthy v ||
      (match v with | .vList tcs => tcs.all wfToolCall | _ => false)

/-- Well-shaped `tool_call_id` attribute: serialisable when present. -/
def wfIdAttr (m : Val) : Bool :=
  match attrOf m "tool_call_id" with
  | none => true
  | some v => jsonable v

/-- A message every access of `_format_langchain_messages` tolerates. -/
def wfMessage (m : Val) : Bool := wfContent m && wfToolCallsAttr m && wfIdAttr m

theorem formatToolCall_of_wf (tc : Val) (h : wfToolCall tc = true) :
    ∃ f, formatToolCall tc = .ok f ∧ jsonable f = true := by
  cases tc with
  | vDict kvs =>
    simp only [wfToolCall, Bool.and_eq_true, Bool.or_eq_true, Bool.not_eq_true'] at h
    obtain ⟨⟨hid, hname⟩, hargs⟩ := h
    by_cases htr : truthy (dictGet kvs "args") = true
    · have hj : jsonable (dictGetD kvs "args" (.vDict [])) = true := by
        cases hargs with
        | inl h' => rw [h'] at htr; cases htr
        | inr h' => exact h'
      have hdump := jsonable_dumps _ hj
      cases hres : jsonDumps (dictGetD kvs "args" (.vDict [])) with
      | error e => rw [hres] at hdump; simp [exOk] at hdump
      | ok astr =>
        refine ⟨.vDict [("id", dictGetD kvs "id" (.vStr "")), ("type", .vStr "function"),
          ("function", .vDict [("name", dictGetD kvs "name" (.vStr "")),
            ("arguments", .vStr astr)])], ?_, ?_⟩
        · have htrD : truthy (dictGetD kvs "args" Val.vNone) = true := htr
          simp only [formatToolCall, pyGetD, pyGet, exc_bind_ok, exc_pure_bind]
          rw [hres, if_pos htrD]
          rfl
        · simp [jsonable, jsonableKVs, jsonableList, hid, hname]
    · refine ⟨.vDict [("id", dictGetD kvs "id" (.vStr "")), ("type", .vStr "function"),
        ("function", .vDict [("name", dictGetD kvs "name" (.vStr "")),
          ("arguments", .vStr "")])], ?_, ?_⟩
      · have htrD : truthy (dictGetD kvs "args" Val.vNone) = false := by simpa using htr
        simp only [formatToolCall, pyGetD, pyGet, exc_bind_ok, exc_pure_bind]
        rw [if_neg (by simp [htrD])]
        rfl
      · simp [jsonable, jsonableKVs, jsonableList, hid, hname]
  | vNone => simp [wfToolCall] at h
  | vBool b => simp [wfToolCall] at h
  | vInt n => simp [wfToolCall] at h
  | vStr s => simp [wfToolCall] at h
  | vList xs => simp [wfToolCall] at h
  | vObj cls attrs => simp [wfToolCall] at h

theorem formatToolCallList_of_wf : ∀ tcs : List Val, tcs.all wfToolCall = true →
    ∃ fs, formatToolCallList tcs = .ok fs ∧ jsonableList fs = true := by
  intro tcs
  induction tcs with
  | nil => intro h; exact ⟨[], rfl, rfl⟩
  | cons tc rest ih =>
    intro h
    simp only [List.all_cons, Bool.and_eq_true] at h
    obtain ⟨h1, h2⟩ := h
    obtain ⟨f, hf, hfj⟩ := formatToolCall_of_wf tc h1
    obtain ⟨fs, hfs, hfsj⟩ := ih h2
    refine ⟨f :: fs, ?_, ?_⟩
    · simp only [formatToolCallList]
      rw [hf]
      simp only [exc_bind_ok]
      rw [hfs]
      rfl
    · simp [jsonableList, hfj, hfsj]

theorem toolField_of_wf (m : Val) (h : wfToolCallsAttr m = true) :
    ∃ tf, toolField m = .ok tf ∧ jsonableKVs tf = true := by
  cases hattr : attrOf m "tool_calls" with
  | none =>
    refine ⟨[], ?_, rfl⟩
    rw [toolField, if_neg (by simp [attrOf_none_hasattr m "tool_calls" hattr])]
    rfl
  | some v =>
    obtain ⟨hh, hg⟩ := attrOf_some_hasattr m "tool_calls" v hattr
    by_cases htr : truthy v = true
    · rw [wfToolCallsAttr, hattr] at h
      simp only [Bool.or_eq_true, Bool.not_eq_true'] at h
      cases h with
      | inl h' => rw [h'] at htr; cases htr
      | inr h' =>
        cases v with
        | vList tcs =>
          obtain ⟨fs, hfs, hfsj⟩ := formatToolCallList_of_wf tcs h'
          refine ⟨[("tool_calls", Val.vList fs)], ?_, ?_⟩
          · rw [toolField, if_pos (by simp [hh, hg, htr]), hg]
            simp only [pyIter, exc_bind_ok]
            rw [hfs]
            rfl
          · simp [jsonableKVs, jsonable, hfsj]
        | vNone => cases h'
        | vBool b => cases h'
        | vInt n => cases h'
        | vStr s => cases h'
        | vDict kvs => cases h'
        | vObj cls attrs => cases h'
    · have htr' : truthy v = false := by simpa using htr
      refine ⟨[], ?_, rfl⟩
      rw [toolField, if_neg (by simp [hg, htr'])]
      rfl

theorem jsonableKVs_append (a b : List (String × Val)) :
    jsonableKVs (a ++ b) = (jsonableKVs a && jsonableKVs b) := by
  induction a with
  | nil => simp [jsonableKVs]
  | cons p rest ih =>
    cases p
    simp [jsonableKVs, ih, Bool.and_assoc]

theorem formatMessage_of_wf (m : Val) (h : wfMessage m = true) :
    ∃ fm, formatMessage m = .ok fm ∧ jsonable fm = true := by
  simp only [wfMessage, Bool.and_eq_true] at h
  obtain ⟨⟨hc, ht⟩, hid⟩ := h
  have hco := extractContent_of_wf m hc
  cases hcres : extractContent m with
  | error e => rw [hcres] at hco; simp [exOk] at hco
  | ok c =>
    obtain ⟨tf, htf, htfj⟩ := toolField_of_wf m ht
    refine ⟨.vDict ([("role", Val.vStr (roleForMessage m)), ("content", Val.vStr c)]
      ++ tf ++ idField m), ?_, ?_⟩
    · exact (formatMessage_ok_iff m _).mpr ⟨c, tf, hcres, htf, rfl⟩
    · have hidf : jsonableKVs (idField m) = true := by
        cases hattr : attrOf m "tool_call_id" with
        | none =>
          rw [idField, if_neg (by simp [attrOf_none_hasattr m "tool_call_id" hattr])]
          rfl
        | some v =>
          obtain ⟨hh, hg⟩ := attrOf_some_hasattr m "tool_call_id" v hattr
          rw [idField, if_pos hh, hg]
          rw [wfIdAttr, hattr] at hid
          have hid2 : jsonable v = true := hid
          simp [jsonableKVs, hid2]
      have hexp : jsonable (Val.vDict ([("role", Val.vStr (roleForMessage m)),
          ("content", Val.vStr c)] ++ tf ++ idField m)) =
          jsonableKVs ([("role", Val.vStr (roleForMessage m)),
            ("content", Val.vStr c)] ++ tf ++ idField m) := rfl
      rw [hexp, jsonableKVs_append, jsonableKVs_append]
      simp [jsonableKVs, jsonable, htfj, hidf]

theorem formatMessages_of_wf : ∀ msgs : List Val, msgs.all wfMessage = true →
    ∃ fms, formatMessages msgs = .ok fms ∧ jsonableList fms = true := by
  intro msgs
  induction msgs with
  | nil => intro h; exact ⟨[], rfl, rfl⟩
  | cons m rest ih =>
    intro h
    simp only [List.all_cons, Bool.and_eq_true] at h
    obtain ⟨h1, h2⟩ := h
    obtain ⟨fm, hfm, hfmj⟩ := formatMessage_of_wf m h1
    obtain ⟨fms, hfms, hfmsj⟩ := ih h2
    refine ⟨fm :: fms, ?_, ?_⟩
    · simp only [formatMessages]
      rw [hfm]
      simp only [exc_bind_ok]
      rw [hfms]
      rfl
    · simp [jsonableList, hfmj, hfmsj]



/-- A function descriptor whose `name`, when present, is a string (so that
the comma-join of collected names cannot raise). -/
def wfFunc : Val → Bool
  | .vDict kvs =>
    (match alookup kvs "name" with
     | none => true
     | some (.vStr _) => true
     | some _ => false)
  | _ => false

/-- A `tools` entry the request extractor tolerates. -/
def wfTool : Val → Bool
  | .vDict kvs =>
    (match alookup kvs "function_declarations" with
     | some (.vList fs) => fs.all wfFunc
     | some _ => false
     | none =>
       match alookup kvs "function" with
       | some f => wfFunc f
       | none => true)
  | _ => true

/-- Well-shaped call options: `tools`, when present, is a list of
acceptable entries. -/
def wfKwargs (kwargs : List (String × Val)) : Bool :=
  match alookup kwargs "tools" with
  | none => true
  | some (.vList ts) => ts.all wfTool
  | some _ => false

theorem hasattr_getattrE (x : Val) (a : String) (h : hasattr x a = true) :
    ∃ v, getattrE x a = .ok v ∧ getattrD x a = v := by
  cases x with
  | vObj cls attrs =>
    cases halk : alookup attrs a with
    | none => simp [hasattr, halk] at h
    | some v => exact ⟨v, by simp [getattrE, halk], by simp [getattrD, getattrE, halk]⟩
  | vNone => simp [hasattr] at h
  | vBool b => simp [hasattr] at h
  | vInt n => simp [hasattr] at h
  | vStr s => simp [hasattr] at h
  | vList xs => simp [hasattr] at h
  | vDict kvs => simp [hasattr] at h

theorem funcNames_of_wf : ∀ fs : List Val, fs.all wfFunc = true →
    ∃ ss : List String, funcNames fs = .ok (ss.map Val.vStr) := by
  intro fs
  induction fs with
  | nil => intro h; exact ⟨[], rfl⟩
  | cons f rest ih =>
    intro h
    simp only [List.all_cons, Bool.and_eq_true] at h
    obtain ⟨h1, h2⟩ := h
    obtain ⟨ss, hss⟩ := ih h2
    cases f with
    | vDict kvs =>
      cases hname : alookup kvs "name" with
      | none =>
        refine ⟨"unknown" :: ss, ?_⟩
        simp only [funcNames, pyGetD, exc_bind_ok, exc_pure_bind]
        rw [hss]
        simp [exc_bind_ok, dictGetD, hname]
      | some v =>
        cases v with
        | vStr u =>
          refine ⟨u :: ss, ?_⟩
          simp only [funcNames, pyGetD, exc_bind_ok, exc_pure_bind]
          rw [hss]
          simp [exc_bind_ok, dictGetD, hname]
        | vNone => simp [wfFunc, hname] at h1
        | vBool b => simp [wfFunc, hname] at h1
        | vInt n => simp [wfFunc, hname] at h1
        | vList xs => simp [wfFunc, hname] at h1
        | vDict kvs2 => simp [wfFunc, hname] at h1
        | vObj cls attrs => simp [wfFunc, hname] at h1
    | vNone => simp [wfFunc] at h1
    | vBool b => simp [wfFunc] at h1
    | vInt n => simp [wfFunc] at h1
    | vStr s => simp [wfFunc] at h1
    | vList xs => simp [wfFunc] at h1
    | vObj cls attrs => simp [wfFunc] at h1

theorem toolNamesOf_of_wf : ∀ ts : List Val, ts.all wfTool = true →
    ∃ ss : List String, toolNamesOf ts = .ok (ss.map Val.vStr) := by
  intro ts
  induction ts with
  | nil => intro h; exact ⟨[], rfl⟩
  | cons t rest ih =>
    intro h
    simp only [List.all_cons, Bool.and_eq_true] at h
    obtain ⟨h1, h2⟩ := h
    obtain ⟨ss, hss⟩ := ih h2
    cases t with
    | vDict kvs =>
      cases hfd : alookup kvs "function_declarations" with
      | some fd =>
        cases fd with
        | vList fs =>
          have hfs : fs.all wfFunc = true := by
            have := h1
            rw [wfTool, hfd] at this
            exact this
          obtain ⟨ns, hns⟩ := funcNames_of_wf fs hfs
          refine ⟨ns ++ ss, ?_⟩
          simp only [toolNamesOf, hfd, Option.isSome]
          rw [show dictGet kvs "function_declarations" = Val.vList fs from by
            simp [dictGet, hfd]]
          simp only [pyIter, exc_bind_ok]
          rw [hns]
          simp only [exc_bind_ok]
          rw [hss]
          simp [exc_bind_ok]
        | vNone => rw [wfTool, hfd] at h1; cases h1
        | vBool b => rw [wfTool, hfd] at h1; cases h1
        | vInt n => rw [wfTool, hfd] at h1; cases h1
        | vStr s => rw [wfTool, hfd] at h1; cases h1
        | vDict kvs2 => rw [wfTool, hfd] at h1; cases h1
        | vObj cls attrs => rw [wfTool, hfd] at h1; cases h1
      | none =>
        cases hf : alookup kvs "function" with
        | some f =>
          have hwf : wfFunc f = true := by
            have := h1
            rw [wfTool, hfd, hf] at this
            exact this
          cases f with
          | vDict fkvs =>
            cases hname : alookup fkvs "name" with
            | none =>
              refine ⟨"unknown" :: ss, ?_⟩
              simp only [toolNamesOf, hfd, hf, Option.isSome]
              rw [show dictGet kvs "function" = Val.vDict fkvs from by simp [dictGet, hf]]
              simp only [pyGetD, exc_bind_ok, exc_pure_bind]
              rw [hss]
              simp [exc_bind_ok, dictGetD, hname]
            | some v =>
              cases v with
              | vStr u =>
                refine ⟨u :: ss, ?_⟩
                simp only [toolNamesOf, hfd, hf, Option.isSome]
                rw [show dictGet kvs "function" = Val.vDict fkvs from by simp [dictGet, hf]]
                simp only [pyGetD, exc_bind_ok, exc_pure_bind]
                rw [hss]
                simp [exc_bind_ok, dictGetD, hname]
              | vNone => simp [wfFunc, hname] at hwf
              | vBool b => simp [wfFunc, hname] at hwf
              | vInt n => simp [wfFunc, hname] at hwf
              | vList xs => simp [wfFunc, hname] at hwf
              | vDict kvs2 => simp [wfFunc, hname] at hwf
              | vObj cls attrs => simp [wfFunc, hname] at hwf
          | vNone => simp [wfFunc] at hwf
          | vBool b => simp [wfFunc] at hwf
          | vInt n => simp [wfFunc] at hwf
          | vStr s => simp [wfFunc] at hwf
          | vList xs => simp [wfFunc] at hwf
          | vObj cls attrs => simp [wfFunc] at hwf
        | none =>
          refine ⟨ss, ?_⟩
          simp only [toolNamesOf, hfd, hf, Option.isSome]
          exact hss
    | vNone => exact ⟨ss, by simpa [toolNamesOf] using hss⟩
    | vBool b => exact ⟨ss, by simpa [toolNamesOf] using hss⟩
    | vInt n => exact ⟨ss, by simpa [toolNamesOf] using hss⟩
    | vStr s => exact ⟨ss, by simpa [toolNamesOf] using hss⟩
    | vList xs => exact ⟨ss, by simpa [toolNamesOf] using hss⟩
    | vObj cls attrs => exact ⟨ss, by simpa [toolNamesOf] using hss⟩

theorem toolsEvents_of_wf (kwargs : List (String × Val)) (h : wfKwargs kwargs = true) :
    (toolsEvents kwargs).2 = none := by
  cases htools : alookup kwargs "tools" with
  | none => simp [toolsEvents, htools]
  | some tools =>
    cases tools with
    | vList ts =>
      have hts : ts.all wfTool = true := by
        have := h
        rw [wfKwargs, htools] at this
        exact this
      obtain ⟨ss, hss⟩ := toolNamesOf_of_wf ts hts
      rw [toolsEvents, htools]
      simp only [pyLen, pyIter]
      rw [hss]
      by_cases hempty : (ss.map Val.vStr).isEmpty = true
      · simp [hempty]
      · simp only [hempty]
        have hjoin := pyJoin_strings_ok "," ss
        cases hj : pyJoin "," (ss.map Val.vStr) with
        | error e => rw [hj] at hjoin; simp [exOk] at hjoin
        | ok s => simp [hj, hempty]
    | vNone => rw [wfKwargs, htools] at h; cases h
    | vBool b => rw [wfKwargs, htools] at h; cases h
    | vInt n => rw [wfKwargs, htools] at h; cases h
    | vStr s => rw [wfKwargs, htools] at h; cases h
    | vDict kvs => rw [wfKwargs, htools] at h; cases h
    | vObj cls attrs => rw [wfKwargs, htools] at h; cases h

theorem sva_of_wf (llm : Val) (msgs : List Val) (kwargs : List (String × Val))
    (hm : hasattr llm "model_name" = true) (hmsgs : msgs.all wfMessage = true)
    (hkw : wfKwargs kwargs = true) :
    (set_vertexai_attributes llm msgs kwargs).2 = none := by
  obtain ⟨mn, hmn, _⟩ := hasattr_getattrE llm "model_name" hm
  obtain ⟨fms, hfms, hfmsj⟩ := formatMessages_of_wf msgs hmsgs
  have hdump := jsonable_dumps (.vList fms) (by simpa [jsonable] using hfmsj)
  cases hjs : jsonDumps (.vList fms) with
  | error e => rw [hjs] at hdump; simp [exOk] at hdump
  | ok js =>
    have htool := toolsEvents_of_wf kwargs hkw
    unfold set_vertexai_attributes
    rw [hmn, hfms]
    dsimp only
    rw [hjs]
    dsimp only
    cases htt : toolsEvents kwargs with
    | mk ev3 e3 =>
      rw [htt] at htool
      simp only at htool
      subst htool
      rfl



/-- Values with a `len`. -/
def sized : Val → Bool
  | .vList _ => true
  | .vDict _ => true
  | .vStr _ => true
  | _ => false

/-- Response tool calls whose `name` values survive the comma-join. -/
def wfRespToolNames (m : Val) : Bool :=
  match attrOf m "tool_calls" with
  | none => true
  | some v => !truthy v || (match v with | .vList tcs => tcs.all wfFunc | _ => false)

/-- Well-shaped `response_metadata`: a dict whose `safety_ratings`, when
truthy, is sized. -/
def wfRespMetadata (m : Val) : Bool :=
  match attrOf m "response_metadata" with
  | none => true
  | some md => !truthy md ||
      (match md with
       | .vDict kvs =>
         (match alookup kvs "safety_ratings" with
          | none => true
          | some v => !truthy v || sized v)
       | _ => false)

/-- A response message every access of `_set_response_attributes`
tolerates. -/
def wfRespMessage (m : Val) : Bool := wfMessage m && wfRespToolNames m && wfRespMetadata m

/-- A result object every access of `_set_response_attributes` tolerates:
`generations`, when truthy, is a non-empty list whose head is an object
carrying a well-shaped `message`. -/
def wfResult (r : Val) : Bool :=
  match attrOf r "generations" with
  | none => true
  | some g => !truthy g ||
      (match g with
       | .vList (g0 :: _) =>
         (match g0 with
          | .vObj _ gattrs =>
            (match alookup gattrs "message" with
             | some msg => wfRespMessage msg
             | none => false)
          | _ => false)
       | _ => false)

theorem respToolEvents_of_wf (m : Val) (hn : wfRespToolNames m = true) :
    (respToolEvents m).2 = none := by
  cases hattr : attrOf m "tool_calls" with
  | none =>
    rw [respToolEvents, if_neg (by simp [attrOf_none_hasattr m "tool_calls" hattr])]
  | some v =>
    obtain ⟨hh, hg⟩ := attrOf_some_hasattr m "tool_calls" v hattr
    by_cases htr : truthy v = true
    · rw [wfRespToolNames, hattr] at hn
      simp only [Bool.or_eq_true, Bool.not_eq_true'] at hn
      cases hn with
      | inl h' => rw [h'] at htr; cases htr
      | inr h' =>
        cases v with
        | vList tcs =>
          obtain ⟨ss, hss⟩ := funcNames_of_wf tcs h'
          rw [respToolEvents, if_pos (by simp [hh, hg, htr]), hg]
          simp only [pyLen, pyIter]
          rw [hss]
          have hjoin := pyJoin_strings_ok "," ss
          cases hj : pyJoin "," (ss.map Val.vStr) with
          | error e => rw [hj] at hjoin; simp [exOk] at hjoin
          | ok s => simp [hj]
        | vNone => cases h'
        | vBool b => cases h'
        | vInt n => cases h'
        | vStr s => cases h'
        | vDict kvs => cases h'
        | vObj cls attrs => cases h'
    · have htr' : truthy v = false := by simpa using htr
      rw [respToolEvents, if_neg (by simp [hg, htr'])]

theorem metaKeyAttr_dict (kvs : List (String × Val)) (key attrName : String) :
    (metaKeyAttr (.vDict kvs) key attrName).2 = none := by
  rw [metaKeyAttr]
  cases halk : alookup kvs key with
  | none => simp [pyContains, halk]
  | some v => simp [pyContains, halk, pySubscript]

theorem safetyRatings_of_wf (kvs : List (String × Val))
    (h : (match alookup kvs "safety_ratings" with
      | none => true
      | some v => !truthy v || sized v) = true) :
    (safetyRatingsEvents (.vDict kvs)).2 = none := by
  rw [safetyRatingsEvents]
  cases halk : alookup kvs "safety_ratings" with
  | none => simp [pyContains, halk]
  | some v =>
    rw [halk] at h
    simp only [Bool.or_eq_true, Bool.not_eq_true'] at h
    by_cases htr : truthy v = true
    · have hsz : sized v = true := by
        cases h with
        | inl h' => rw [h'] at htr; cases htr
        | inr h' => exact h'
      cases v with
      | vList xs => simp [pyContains, halk, pySubscript, htr, pyLen]
      | vDict kvs2 => simp [pyContains, halk, pySubscript, htr, pyLen]
      | vStr s => simp [pyContains, halk, pySubscript, htr, pyLen]
      | vNone => simp [sized] at hsz
      | vBool b => simp [sized] at hsz
      | vInt n => simp [sized] at hsz
      | vObj cls attrs => simp [sized] at hsz
    · have htr' : truthy v = false := by simpa using htr
      simp [pyContains, halk, pySubscript, htr']

theorem citationsEvents_dict (kvs : List (String × Val)) :
    (citationsEvents (.vDict kvs)).2 = none := by
  rw [citationsEvents]
  cases halk : alookup kvs "citation_metadata" with
  | none => simp [pyContains, halk]
  | some v =>
    by_cases htr : truthy v = true
    · simp [pyContains, halk, pySubscript, htr]
    · have htr' : truthy v = false := by simpa using htr
      simp [pyContains, halk, pySubscript, htr']

theorem evSeq_snd_none {α : Type} (a : List α × Option Exc) (b : Unit → List α × Option Exc)
    (ha : a.2 = none) (hb : (b ()).2 = none) : (evSeq a b).2 = none := by
  rcases a with ⟨ev, oe⟩
  simp only at ha
  subst ha
  rcases hbv : b () with ⟨ev2, e2⟩
  rw [hbv] at hb
  simp only at hb
  subst hb
  simp [evSeq, hbv]

theorem respMetadataEvents_of_wf (m : Val) (h : wfRespMetadata m = true) :
    (respMetadataEvents m).2 = none := by
  cases hattr : attrOf m "response_metadata" with
  | none =>
    rw [respMetadataEvents,
      if_neg (by simp [attrOf_none_hasattr m "response_metadata" hattr])]
  | some md =>
    obtain ⟨hh, hg⟩ := attrOf_some_hasattr m "response_metadata" md hattr
    by_cases htr : truthy md = true
    · rw [wfRespMetadata, hattr] at h
      simp only [Bool.or_eq_true, Bool.not_eq_true'] at h
      cases h with
      | inl h' => rw [h'] at htr; cases htr
      | inr h' =>
        cases md with
        | vDict kvs =>
          rw [respMetadataEvents, if_pos (by simp [hh, hg, htr]), hg]
          exact evSeq_snd_none _ _ (metaKeyAttr_dict kvs "model_name" "gen_ai.response.model")
            (evSeq_snd_none _ _
              (metaKeyAttr_dict kvs "finish_reason" "gen_ai.response.finish_reasons")
              (evSeq_snd_none _ _ (safetyRatings_of_wf kvs h')
                (citationsEvents_dict kvs)))
        | vNone => cases h'
        | vBool b => cases h'
        | vInt n => cases h'
        | vStr s => cases h'
        | vList xs => cases h'
        | vObj cls attrs => cases h'
    · have htr' : truthy md = false := by simpa using htr
      rw [respMetadataEvents, if_neg (by simp [hg, htr'])]

theorem sra_of_wf (r : Val) (h : wfResult r = true) :
    (set_response_attributes r).2 = none := by
  cases hattr : attrOf r "generations" with
  | none =>
    rw [set_response_attributes,
      if_neg (by simp [attrOf_none_hasattr r "generations" hattr])]
  | some g =>
    obtain ⟨hh, hg⟩ := attrOf_some_hasattr r "generations" g hattr
    by_cases htr : truthy g = true
    · rw [wfResult, hattr] at h
      simp only [Bool.or_eq_true, Bool.not_eq_true'] at h
      cases h with
      | inl h' => rw [h'] at htr; cases htr
      | inr h' =>
        cases g with
        | vList gs =>
          cases gs with
          | nil => cases h'
          | cons g0 grest =>
            cases g0 with
            | vObj gcls gattrs =>
              have h2 : (match alookup gattrs "message" with
                  | some mmsg => wfRespMessage mmsg
                  | none => false) = true := h'
              cases hmsg : alookup gattrs "message" with
              | none => rw [hmsg] at h2; cases h2
              | some msg =>
                rw [hmsg] at h2
                have hgood : wfRespMessage msg = true := h2
                simp only [wfRespMessage, Bool.and_eq_true] at hgood
                obtain ⟨⟨hwfm, hwfn⟩, hwfmd⟩ := hgood
                obtain ⟨fms, hfms, hfmsj⟩ := formatMessages_of_wf [msg]
                  (by simp [List.all_cons, hwfm])
                have hdump := jsonable_dumps (.vList fms) (by simpa [jsonable] using hfmsj)
                cases hjs : jsonDumps (.vList fms) with
                | error e => rw [hjs] at hdump; simp [exOk] at hdump
                | ok js =>
                  rw [set_response_attributes, if_pos (by simp [hh, hg, htr]), hg]
                  dsimp only [pyIndex0]
                  rw [show getattrE (Val.vObj gcls gattrs) "message" = .ok msg from by
                    simp [getattrE, hmsg]]
                  dsimp only
                  rw [hfms]
                  dsimp only
                  rw [hjs]
                  dsimp only
                  have hrt := respToolEvents_of_wf msg hwfn
                  cases hrtv : respToolEvents msg with
                  | mk ev3 e3 =>
                    rw [hrtv] at hrt
                    simp only at hrt
                    subst hrt
                    have hrm := respMetadataEvents_of_wf msg hwfmd
                    cases hrmv : respMetadataEvents msg with
                    | mk ev4 e4 =>
                      rw [hrmv] at hrm
                      simp only at hrm
                      subst hrm
                      rfl
            | vNone => cases h'
            | vBool b => cases h'
            | vInt n => cases h'
            | vStr s => cases h'
            | vList xs => cases h'
            | vDict kvs => cases h'
        | vNone => cases h'
        | vBool b => cases h'
        | vInt n => cases h'
        | vStr s => cases h'
        | vDict kvs => cases h'
        | vObj cls attrs => cases h'
    · have htr' : truthy g = false := by simpa using htr
      rw [set_response_attributes, if_neg (by simp [hg, htr'])]



/-- The guarded optional client-config fields and their span attribute
names (source lines 62-75 and 99-100). -/
def configPairs : List (String × String) :=
  [("project", "gen_ai.request.vertex_ai.project"),
   ("location", "gen_ai.request.vertex_ai.location"),
   ("temperature", "gen_ai.request.temperature"),
   ("max_output_tokens", "gen_ai.request.max_tokens"),
   ("top_p", "gen_ai.request.top_p"),
   ("top_k", "gen_ai.request.top_k"),
   ("safety_settings", "gen_ai.request.vertex_ai.safety_settings.enabled")]

theorem optAttrTruthy_mem (x : Val) (a nn : String) (p : String × Val)
    (hp : p ∈ optAttrTruthy x a nn) : p.1 = nn ∧ hasattr x a = true := by
  unfold optAttrTruthy at hp
  split at hp
  · rename_i hcond
    simp only [Bool.and_eq_true] at hcond
    simp only [List.mem_singleton] at hp
    exact ⟨by rw [hp], hcond.1⟩
  · simp at hp

theorem optAttrNotNone_mem (x : Val) (a nn : String) (p : String × Val)
    (hp : p ∈ optAttrNotNone x a nn) : p.1 = nn ∧ hasattr x a = true := by
  unfold optAttrNotNone at hp
  split at hp
  · rename_i hcond
    simp only [Bool.and_eq_true] at hcond
    simp only [List.mem_singleton] at hp
    exact ⟨by rw [hp], hcond.1⟩
  · simp at hp

theorem toolsEvents_names (kw : List (String × Val)) (p : String × Val)
    (hp : p ∈ (toolsEvents kw).1) :
    p.1 = "gen_ai.request.tools.count" ∨ p.1 = "gen_ai.request.tools.names" := by
  unfold toolsEvents at hp
  repeat' split at hp
  all_goals try simp_all
  all_goals (rcases hp with h | h <;> rw [h] <;> simp)

theorem sva_mem_names (llm : Val) (msgs : List Val) (kw : List (String × Val))
    (p : String × Val) (hp : p ∈ (set_vertexai_attributes llm msgs kw).1) :
    p.1 ∈ ["gen_ai.operation.name", "gen_ai.system", "gen_ai.request.model",
      "gen_ai.input.messages.count", "gen_ai.input.messages"] ∨
    p ∈ (toolsEvents kw).1 ∨
    ∃ a, (a, p.1) ∈ configPairs ∧ hasattr llm a = true := by
  have hbase : ∀ q : String × Val,
      q.1 = "gen_ai.operation.name" ∨ q.1 = "gen_ai.system" ∨ q.1 = "gen_ai.request.model" ∨
        q.1 = "gen_ai.input.messages.count" ∨ q.1 = "gen_ai.input.messages" →
      q.1 ∈ ["gen_ai.operation.name", "gen_ai.system", "gen_ai.request.model",
        "gen_ai.input.messages.count", "gen_ai.input.messages"] ∨
      q ∈ (toolsEvents kw).1 ∨
      ∃ a, (a, q.1) ∈ configPairs ∧ hasattr llm a = true := by
    intro q hq
    left
    rcases hq with h | h | h | h | h <;> simp [h]
  have hcfg : ∀ (a : String) (q : String × Val), (a, q.1) ∈ configPairs →
      hasattr llm a = true →
      q.1 ∈ ["gen_ai.operation.name", "gen_ai.system", "gen_ai.request.model",
        "gen_ai.input.messages.count", "gen_ai.input.messages"] ∨
      q ∈ (toolsEvents kw).1 ∨
      ∃ a, (a, q.1) ∈ configPairs ∧ hasattr llm a = true :=
    fun a q hm hh => Or.inr (Or.inr ⟨a, hm, hh⟩)
  have hev1 : ∀ q : String × Val, ∀ mn : Val,
      q ∈ [("gen_ai.operation.name", Val.vStr "chat"), ("gen_ai.system", Val.vStr "vertex_ai")]
        ++ [("gen_ai.request.model", mn)]
        ++ optAttrTruthy llm "project" "gen_ai.request.vertex_ai.project"
        ++ optAttrTruthy llm "location" "gen_ai.request.vertex_ai.location"
        ++ optAttrNotNone llm "temperature" "gen_ai.request.temperature"
        ++ optAttrNotNone llm "max_output_tokens" "gen_ai.request.max_tokens"
        ++ optAttrNotNone llm "top_p" "gen_ai.request.top_p"
        ++ optAttrNotNone llm "top_k" "gen_ai.request.top_k"
        ++ [("gen_ai.input.messages.count", Val.vInt msgs.length)] →
      q.1 ∈ ["gen_ai.operation.name", "gen_ai.system", "gen_ai.request.model",
        "gen_ai.input.messages.count", "gen_ai.input.messages"] ∨
      q ∈ (toolsEvents kw).1 ∨
      ∃ a, (a, q.1) ∈ configPairs ∧ hasattr llm a = true := by
    intro q mn hq
    rcases List.mem_append.mp hq with hq1 | h
    swap
    · exact hbase q (by simp [List.mem_singleton.mp h])
    rcases List.mem_append.mp hq1 with hq2 | h
    swap
    · obtain ⟨h1, h2⟩ := optAttrNotNone_mem llm "top_k" _ q h
      exact hcfg "top_k" q (by simp [configPairs, h1]) h2
    rcases List.mem_append.mp hq2 with hq3 | h
    swap
    · obtain ⟨h1, h2⟩ := optAttrNotNone_mem llm "top_p" _ q h
      exact hcfg "top_p" q (by simp [configPairs, h1]) h2
    rcases List.mem_append.mp hq3 with hq4 | h
    swap
    · obtain ⟨h1, h2⟩ := optAttrNotNone_mem llm "max_output_tokens" _ q h
      exact hcfg "max_output_tokens" q (by simp [configPairs, h1]) h2
    rcases List.mem_append.mp hq4 with hq5 | h
    swap
    · obtain ⟨h1, h2⟩ := optAttrNotNone_mem llm "temperature" _ q h
      exact hcfg "temperature" q (by simp [configPairs, h1]) h2
    rcases List.mem_append.mp hq5 with hq6 | h
    swap
    · obtain ⟨h1, h2⟩ := optAttrTruthy_mem llm "location" _ q h
      exact hcfg "location" q (by simp [configPairs, h1]) h2
    rcases List.mem_append.mp hq6 with hq7 | h
    swap
    · obtain ⟨h1, h2⟩ := optAttrTruthy_mem llm "project" _ q h
      exact hcfg "project" q (by simp [configPairs, h1]) h2
    rcases List.mem_append.mp hq7 with h | h
    · simp only [List.mem_cons, List.mem_singleton, List.not_mem_nil, or_false] at h
      rcases h with h | h
      · exact hbase q (by simp [h])
      · exact hbase q (by simp [h])
    · exact hbase q (by simp [List.mem_singleton.mp h])
  unfold set_vertexai_attributes at hp
  cases hmn : getattrE llm "model_name" with
  | error e =>
    rw [hmn] at hp
    simp only [List.mem_cons, List.mem_singleton, List.not_mem_nil, or_false] at hp
    rcases hp with h | h
    · exact hbase p (by simp [h])
    · exact hbase p (by simp [h])
  | ok mn =>
    rw [hmn] at hp
    dsimp only at hp
    cases hfm : formatMessages msgs with
    | error e =>
      rw [hfm] at hp
      exact hev1 p mn hp
    | ok fms =>
      rw [hfm] at hp
      dsimp only at hp
      cases hjs : jsonDumps (.vList fms) with
      | error e =>
        rw [hjs] at hp
        exact hev1 p mn hp
      | ok js =>
        rw [hjs] at hp
        dsimp only at hp
        cases hte : toolsEvents kw with
        | mk ev3 e3 =>
          rw [hte] at hp
          cases e3 with
          | some e =>
            rw [← hte]
            dsimp only at hp
            rw [List.mem_append] at hp
            rcases hp with h | h
            · rw [List.mem_append] at h
              rcases h with h | h
              · exact hev1 p mn h
              · exact hbase p (by simp [List.mem_singleton.mp h])
            · exact Or.inr (Or.inl (by rw [hte]; exact h))
          | none =>
            rw [← hte]
            dsimp only at hp
            rw [List.mem_append] at hp
            rcases hp with h | h
            · rw [List.mem_append] at h
              rcases h with h | h
              · rw [List.mem_append] at h
                rcases h with h | h
                · exact hev1 p mn h
                · exact hbase p (by simp [List.mem_singleton.mp h])
              · exact Or.inr (Or.inl (by rw [hte]; exact h))
            · by_cases hsafe : (hasattr llm "safety_settings" &&
                  truthy (getattrD llm "safety_settings")) = true
              · rw [if_pos hsafe] at h
                simp only [List.mem_singleton] at h
                simp only [Bool.and_eq_true] at hsafe
                exact hcfg "safety_settings" p (by simp [configPairs, h]) hsafe.1
              · rw [if_neg hsafe] at h
                simp at h



/-- C1 counterexample: a client config without `model_name` makes the
request extractor raise `AttributeError` (line 59 reads it unguarded), and
the wrapper re-raises it to the caller instead of omitting the attribute. -/
theorem c1_counterexample :
    (set_vertexai_attributes (.vObj "ChatVertexAI" [("project", .vStr "p")]) [] []).2 =
      some (.attributeError "model_name") ∧
    (traced_generate (.vObj "ChatVertexAI" [("project", .vStr "p")]) [] [] (.ok .vNone)).2 =
      .error (.attributeError "model_name") :=
  ⟨rfl, rfl⟩

/-- C1 as amended: both extractors complete without raising whenever
`model_name` is present and every field that is present is well-shaped
(`wfMessage`/`wfKwargs`/`wfResult`); each guarded optional field omits its
attribute when absent — but `config.model_name` itself is read unguarded,
so its absence raises (see the counterexample). -/
theorem c1_extractors_amended (llm : Val) (messages : List Val)
    (kwargs : List (String × Val)) (result : Val)
    (hm : hasattr llm "model_name" = true)
    (hmsgs : messages.all wfMessage = true)
    (hkw : wfKwargs kwargs = true)
    (hres : wfResult result = true) :
    (set_vertexai_attributes llm messages kwargs).2 = none ∧
    (set_response_attributes result).2 = none ∧
    (∀ a n, (a, n) ∈ configPairs → hasattr llm a = false →
      ∀ v, (n, v) ∉ (set_vertexai_attributes llm messages kwargs).1) ∧
    (alookup kwargs "tools" = none → ∀ v,
      ("gen_ai.request.tools.count", v) ∉ (set_vertexai_attributes llm messages kwargs).1 ∧
      ("gen_ai.request.tools.names", v) ∉ (set_vertexai_attributes llm messages kwargs).1) ∧
    (∀ m, hasattr m "usage_metadata" = false → usageEvents m = []) ∧
    (∀ m, hasattr m "response_metadata" = false → respMetadataEvents m = ([], none)) ∧
    (∀ m, hasattr m "tool_calls" = false → respToolEvents m = ([], none)) := by
  refine ⟨sva_of_wf llm messages kwargs hm hmsgs hkw, sra_of_wf result hres, ?_, ?_, ?_, ?_, ?_⟩
  · intro a n hmem ha v hv
    simp only [configPairs, List.mem_cons, List.mem_singleton, List.not_mem_nil,
      or_false] at hmem
    rcases sva_mem_names llm messages kwargs (n, v) hv with hfix | hto | ⟨a', hmem', ha'⟩
    · rcases hmem with h | h | h | h | h | h | h <;>
        (simp only [Prod.mk.injEq] at h
         obtain ⟨rfl, rfl⟩ := h
         simp at hfix)
    · have hton := toolsEvents_names kwargs (n, v) hto
      rcases hmem with h | h | h | h | h | h | h <;>
        (simp only [Prod.mk.injEq] at h
         obtain ⟨rfl, rfl⟩ := h
         simp at hton)
    · rcases hmem with h | h | h | h | h | h | h <;>
        (simp only [Prod.mk.injEq] at h
         obtain ⟨rfl, rfl⟩ := h
         simp only [configPairs, List.mem_cons, List.mem_singleton, List.not_mem_nil,
           or_false, Prod.mk.injEq] at hmem'
         simp_all)
  · intro htools v
    have hte : toolsEvents kwargs = ([], none) := by simp [toolsEvents, htools]
    constructor
    · intro hv
      rcases sva_mem_names llm messages kwargs _ hv with hfix | hto | ⟨a', hmem', ha'⟩
      · simp at hfix
      · rw [hte] at hto; simp at hto
      · simp [configPairs, Prod.mk.injEq] at hmem'
    · intro hv
      rcases sva_mem_names llm messages kwargs _ hv with hfix | hto | ⟨a', hmem', ha'⟩
      · simp at hfix
      · rw [hte] at hto; simp at hto
      · simp [configPairs, Prod.mk.injEq] at hmem'
  · intro m hup
    simp [usageEvents, hup]
  · intro m hmd
    simp [respMetadataEvents, hmd]
  · intro m htc
    simp [respToolEvents, htc]

/-- Closed instance of the amended C1: a client with only `model_name`, a
plain human message, no call options, a one-generation result. -/
theorem c1_extractors_amended_witness :
    (set_vertexai_attributes (.vObj "ChatVertexAI" [("model_name", .vStr "gemini-2.0-flash")])
      [.vObj "HumanMessage" [("content", .vStr "Hello")]] []).2 = none ∧
    (set_response_attributes (.vObj "LLMResult" [("generations", .vList [.vObj "ChatGeneration"
      [("message", .vObj "AIMessage" [("content", .vStr "Hi")])]])])).2 = none ∧
    ("gen_ai.request.temperature", Val.vInt 1) ∉
      (set_vertexai_attributes (.vObj "ChatVertexAI" [("model_name", .vStr "gemini-2.0-flash")])
        [.vObj "HumanMessage" [("content", .vStr "Hello")]] []).1 ∧
    ("gen_ai.request.tools.count", Val.vInt 0) ∉
      (set_vertexai_attributes (.vObj "ChatVertexAI" [("model_name", .vStr "gemini-2.0-flash")])
        [.vObj "HumanMessage" [("content", .vStr "Hello")]] []).1 ∧
    usageEvents (.vObj "AIMessage" [("content", .vStr "Hi")]) = [] ∧
    respMetadataEvents (.vObj "AIMessage" [("content", .vStr "Hi")]) = ([], none) ∧
    respToolEvents (.vObj "AIMessage" [("content", .vStr "Hi")]) = ([], none) := by
  have T := c1_extractors_amended
    (.vObj "ChatVertexAI" [("model_name", .vStr "gemini-2.0-flash")])
    [.vObj "HumanMessage" [("content", .vStr "Hello")]] []
    (.vObj "LLMResult" [("generations", .vList [.vObj "ChatGeneration"
      [("message", .vObj "AIMessage" [("content", .vStr "Hi")])]])])
    rfl rfl rfl rfl
  exact ⟨T.1, T.2.1,
    T.2.2.1 "temperature" "gen_ai.request.temperature" (by simp [configPairs]) rfl (Val.vInt 1),
    (T.2.2.2.1 rfl (Val.vInt 0)).1,
    T.2.2.2.2.1 _ rfl, T.2.2.2.2.2.1 _ rfl, T.2.2.2.2.2.2 _ rfl⟩

end Spyglass
